import Mathlib

/-!
Verification of the openqed core (grid, Hamiltonian terms, Mott-Wannier
assembly) against its specification.

The Python sources are shallowly embedded as follows.

* Python dictionaries (`BilayerStructure`, `BilayerExcitons`, grid
  `boundaries`/`spacing`) become association lists `List (String × α)`
  looked up with `List.lookup`; `dict.get(k)` is `List.lookup k`, and
  `dict[k]` raising `KeyError` on a missing key is the `none` case of
  `List.lookup` mapped to `PyError.keyError`.
* Fallible Python code returns `Except PyError α`; the constructors of
  `PyError` record the class of the raised exception.
* Exact dictionary and grid arithmetic (`numpy.arange`, mass tables) is
  modelled over `ℚ`; the analytic screened-Coulomb pipeline, which uses
  `tanh`, `cosh`, `sqrt` and `π`, is modelled over `ℝ` with
  `Real.tanh`, `Real.cosh`, `Real.sqrt` and `Real.pi`.
-/

/-- Exception classes raised by the embedded Python code. -/
inductive PyError where
  | valueError
  | keyError
  | typeError
  | indexError
  deriving DecidableEq, Repr

deriving instance DecidableEq for Except

/-- Runtime model of the `BilayerStructure` / `BilayerExcitons` typed
dictionaries: an association list from string keys to values, in insertion
order.  Generic in the value type: mass tables are used over `ℚ`, the
dielectric/thickness tables of the Coulomb term over `ℝ`. -/
abbrev BilayerStruct (α : Type) : Type := List (String × α)

/-- Keys of a Python dict, in insertion order (`dict.keys()`). -/
def dictKeys {α : Type} (d : BilayerStruct α) : List String := d.map Prod.fst

/-- Equality of two `dict.keys()` views.  Python compares key views as
sets, so this checks mutual inclusion of the key lists. -/
def keysEq {α β : Type} (d₁ : BilayerStruct α) (d₂ : BilayerStruct β) : Bool :=
  (dictKeys d₁).all (fun k => (dictKeys d₂).contains k) &&
  (dictKeys d₂).all (fun k => (dictKeys d₁).contains k)

/-- Python `d[k] = v` on a dict: overwrite the value if the key is
present (keeping its position), otherwise append the new binding. -/
def dictInsert {α : Type} (d : BilayerStruct α) (k : String) (v : α) :
    BilayerStruct α :=
  if (dictKeys d).contains k then
    d.map (fun p => if p.1 = k then (k, v) else p)
  else
    d ++ [(k, v)]

/-- Python `d[k]`: the value at `k`, or a `KeyError`. -/
def dictGetItem {α : Type} (d : BilayerStruct α) (k : String) : Except PyError α :=
  match d.lookup k with
  | some v => .ok v
  | none => .error .keyError

/-- `bilayer_excitons.excitons_key_to_system_key`: maps an exciton layer key
(`l1`/`l2`) to a structure key (`layer1`/`layer2`), raising `ValueError`
otherwise. -/
def excitonsKeyToSystemKey (key : String) : Except PyError String :=
  if key = "l1" then .ok "layer1"
  else if key = "l2" then .ok "layer2"
  else .error .valueError

/-- `bilayer_excitons.structure_key_to_exciton_key`: maps a structure key
(`layer1`/`layer2`) to an exciton layer key (`l1`/`l2`), raising
`ValueError` otherwise. -/
def structureKeyToExcitonKey (key : String) : Except PyError String :=
  if key = "layer1" then .ok "l1"
  else if key = "layer2" then .ok "l2"
  else .error .valueError

/-- `typing.get_args(BilayerExcitons)`.  `BilayerExcitons` is a
(non-generic) `TypedDict` class, and `typing.get_args` returns the empty
tuple for any class that carries no `__args__` attribute, so this list is
empty — it does NOT contain the four field names `l1_l1`, `l1_l2`,
`l2_l1`, `l2_l2`. -/
def getArgsBilayerExcitons : List String := []

/-- The four exciton-type keys documented as fields of `BilayerExcitons`. -/
def bilayerExcitonKeys : List String := ["l1_l1", "l1_l2", "l2_l1", "l2_l2"]

/-- Setter of `MottWannierHamiltonian.exciton`: accepts the string only if
it is a member of `typing.get_args(BilayerExcitons)`, else raises
`ValueError`. -/
def excitonSetter (exciton : String) : Except PyError String :=
  if getArgsBilayerExcitons.contains exciton then .ok exciton
  else .error .valueError

/-- Body of the nested loop of `FreeExciton.__init__` for one electron
key: convert both keys and index the mass tables.  NOTE (faithful to the
source): the tables are indexed with the CONVERTED exciton keys `l1`/`l2`
(`electron_effective_mass[l1]`, `hole_effective_mass[l2]`), not with the
original structure keys `elec_key`/`hole_key`. -/
def freeExcitonMassEntry (electron hole : BilayerStruct ℚ)
    (elecKey holeKey : String) : Except PyError (String × ℚ) := do
  let l1 ← structureKeyToExcitonKey elecKey
  let l2 ← structureKeyToExcitonKey holeKey
  let me ← dictGetItem electron l1
  let mh ← dictGetItem hole l2
  .ok (l1 ++ "_" ++ l2, (1 / me + 1 / mh)⁻¹)

/-- Inner loop of `FreeExciton.__init__` (`for hole_key in
hole_effective_mass.keys()`), threading the table being built. -/
def freeExcitonInner (electron hole : BilayerStruct ℚ) (elecKey : String)
    (table : BilayerStruct ℚ) : List String → Except PyError (BilayerStruct ℚ)
  | [] => .ok table
  | holeKey :: rest => do
    let entry ← freeExcitonMassEntry electron hole elecKey holeKey
    freeExcitonInner electron hole elecKey (dictInsert table entry.1 entry.2) rest

/-- Outer loop of `FreeExciton.__init__` (`for elec_key in
electron_effective_mass.keys()`). -/
def freeExcitonOuter (electron hole : BilayerStruct ℚ)
    (table : BilayerStruct ℚ) : List String → Except PyError (BilayerStruct ℚ)
  | [] => .ok table
  | elecKey :: rest => do
    let table' ← freeExcitonInner electron hole elecKey table (dictKeys hole)
    freeExcitonOuter electron hole table' rest

/-- `FreeExciton.__init__` (free_exciton.py, lines 42-52): checks that the
electron and hole mass tables share the same key set, then fills the
`exciton_effective_mass` table over all pairs of keys.  Returns the built
table, or the first exception raised. -/
def freeExcitonInit (electron hole : BilayerStruct ℚ) :
    Except PyError (BilayerStruct ℚ) :=
  if ¬ keysEq electron hole then .error .valueError
  else freeExcitonOuter electron hole [] (dictKeys electron)

/-- Body of the nested loop of `MottWannierHamiltonian._get_effective_mass`:
identical to `freeExcitonMassEntry` except that the mass tables are
indexed with the ORIGINAL structure keys `elec_key`/`hole_key` (the
correct lookup). -/
def effectiveMassEntry (electron hole : BilayerStruct ℚ)
    (elecKey holeKey : String) : Except PyError (String × ℚ) := do
  let l1 ← structureKeyToExcitonKey elecKey
  let l2 ← structureKeyToExcitonKey holeKey
  let me ← dictGetItem electron elecKey
  let mh ← dictGetItem hole holeKey
  .ok (l1 ++ "_" ++ l2, (1 / me + 1 / mh)⁻¹)

/-- Inner loop of `MottWannierHamiltonian._get_effective_mass`. -/
def effectiveMassInner (electron hole : BilayerStruct ℚ) (elecKey : String)
    (table : BilayerStruct ℚ) : List String → Except PyError (BilayerStruct ℚ)
  | [] => .ok table
  | holeKey :: rest => do
    let entry ← effectiveMassEntry electron hole elecKey holeKey
    effectiveMassInner electron hole elecKey (dictInsert table entry.1 entry.2) rest

/-- Outer loop of `MottWannierHamiltonian._get_effective_mass`. -/
def effectiveMassOuter (electron hole : BilayerStruct ℚ)
    (table : BilayerStruct ℚ) : List String → Except PyError (BilayerStruct ℚ)
  | [] => .ok table
  | elecKey :: rest => do
    let table' ← effectiveMassInner electron hole elecKey table (dictKeys hole)
    effectiveMassOuter electron hole table' rest

/-- `MottWannierHamiltonian._get_effective_mass` (mott_wannier_hamiltonian.py,
lines 97-118): `None` arguments raise `ValueError`; then the same loop as
`FreeExciton.__init__` but with the correct table indexing. -/
def getEffectiveMass (electron hole : Option (BilayerStruct ℚ)) :
    Except PyError (BilayerStruct ℚ) :=
  match electron, hole with
  | some e, some h =>
    if ¬ keysEq e h then .error .valueError
    else effectiveMassOuter e h [] (dictKeys e)
  | _, _ => .error .valueError

/-- Claim C1: for electron mass `0.5` and hole mass `0.6` on `layer1`,
`FreeExciton.__init__` raises `KeyError` — it indexes the mass tables by
the converted exciton key `l1`, which the tables (keyed by `layer1`) do
not contain — while the correctly indexed sibling
`MottWannierHamiltonian._get_effective_mass` succeeds and stores the
reduced mass `3/11` under `l1_l1`. -/
theorem freeExciton_reduced_mass_bug :
    freeExcitonInit [("layer1", 1/2)] [("layer1", 3/5)] = .error .keyError ∧
    getEffectiveMass (some [("layer1", 1/2)]) (some [("layer1", 3/5)]) =
      .ok [("l1_l1", 3/11)] := by
  refine ⟨rfl, ?_⟩
  simp [getEffectiveMass, keysEq, dictKeys, effectiveMassOuter, effectiveMassInner,
    effectiveMassEntry, structureKeyToExcitonKey, dictGetItem, dictInsert,
    Bind.bind, Except.bind]
  norm_num

/-- Term instance built by the `MottWannierHamiltonian.__init__` term loop. -/
inductive MWTerm where
  | kinetic (mass : ℚ)
  | coulomb
  deriving DecidableEq

/-- Setter of `KineticTerm.mass`: rejects a mass within `numpy.isclose`
tolerance of zero (`|mass| ≤ 1e-8`) with `ValueError`. -/
def kineticMassSetter (mass : ℚ) : Except PyError ℚ :=
  if |mass| ≤ 1 / 10 ^ 8 then .error .valueError else .ok mass

/-- Term loop of `MottWannierHamiltonian.__init__` (lines 67-79).  For
`kinetic_term` it builds a `KineticTerm` with mass
`effective_masses.get(exciton, 0)`; for `effective_2d_coulomb` it checks
the thickness/dielectric tables for `None` and then calls
`Effective2DCoulombPotential(self, exciton=..., ...)` — whose `__init__`
has no `exciton` parameter, so the call raises `TypeError` (unexpected
keyword argument). -/
def mwhTermLoop (exciton : String) (masses : BilayerStruct ℚ)
    (thicknesses dielectric : Option (BilayerStruct ℝ)) :
    List String → List (String × MWTerm) → Except PyError (List (String × MWTerm))
  | [], acc => .ok acc
  | t :: rest, acc =>
    if t = "kinetic_term" then do
      let mass ← kineticMassSetter ((masses.lookup exciton).getD 0)
      mwhTermLoop exciton masses thicknesses dielectric rest (acc ++ [(t, .kinetic mass)])
    else if t = "effective_2d_coulomb" then
      match thicknesses, dielectric with
      | some _, some _ => .error .typeError
      | _, _ => .error .valueError
    else
      mwhTermLoop exciton masses thicknesses dielectric rest acc

/-- `MottWannierHamiltonian.__init__` (mott_wannier_hamiltonian.py, lines
34-79): base-class init (cannot fail), then `self.exciton = exciton`
(the `exciton` property setter), then `_get_effective_mass`, then the term
loop.  Returns the stored exciton, mass table and term instances. -/
def mottWannierHamiltonianInit (terms : List String) (exciton : String)
    (electron hole : Option (BilayerStruct ℚ))
    (thicknesses dielectric : Option (BilayerStruct ℝ)) :
    Except PyError (String × BilayerStruct ℚ × List (String × MWTerm)) := do
  let exc ← excitonSetter exciton
  let masses ← getEffectiveMass electron hole
  let insts ← mwhTermLoop exc masses thicknesses dielectric terms []
  .ok (exc, masses, insts)

/-- Claim C2: the `exciton` setter tests membership in
`typing.get_args(BilayerExcitons)`, which is empty for a `TypedDict`, so
it raises `ValueError` for every string — in particular for the four
documented exciton keys — and therefore `MottWannierHamiltonian.__init__`
fails for every input. -/
theorem mottWannierHamiltonian_init_always_fails :
    (∀ exciton : String, excitonSetter exciton = .error .valueError) ∧
    (∀ exciton ∈ bilayerExcitonKeys, excitonSetter exciton = .error .valueError) ∧
    (∀ (terms : List String) (exciton : String)
      (electron hole : Option (BilayerStruct ℚ))
      (thicknesses dielectric : Option (BilayerStruct ℝ)),
      mottWannierHamiltonianInit terms exciton electron hole thicknesses dielectric =
        .error .valueError) := by
  refine ⟨fun exciton => rfl, fun exciton _ => rfl, fun terms exciton e h t d => ?_⟩
  simp [mottWannierHamiltonianInit, excitonSetter, getArgsBilayerExcitons,
    Bind.bind, Except.bind]

/-- Length of `numpy.arange(start, stop, step)`: `max(0, ceil((stop-start)/step))`. -/
def arangeLen (start stop step : ℚ) : ℕ := (⌈(stop - start) / step⌉).toNat

/-- `numpy.arange(start, stop, step)`: the points `start + i * step` for
`i = 0, …, arangeLen - 1` (half-open range, the `stop` boundary excluded). -/
def arange (start stop step : ℚ) : List ℚ :=
  (List.range (arangeLen start stop step)).map (fun i : ℕ => start + (i : ℚ) * step)

/-- State of a `KSpaceGrid` object: the constructor arguments, the per-axis
ranges (`space` in `KSpaceGrid.__init__`, one `numpy.arange` per axis in
`spacing`-key order), and the `_flat_grid` cache. -/
structure KSpaceGrid where
  boundaries : List (String × (ℚ × ℚ))
  spacing : List (String × ℚ)
  space : List (List ℚ)
  cache : Option (List (List ℚ))

/-- `Grid.dimensions`: the number of spacing keys. -/
def KSpaceGrid.dimensions (g : KSpaceGrid) : ℕ := g.spacing.length

/-- Loop of `KSpaceGrid.__init__` building `space`: for each spacing key in
order, `start, end = self.boundaries[dim]` (raising `KeyError` when the
key is missing from `boundaries`), then `numpy.arange(start, end, spacing)`. -/
def buildSpace (boundaries : List (String × (ℚ × ℚ))) :
    List (String × ℚ) → Except PyError (List (List ℚ))
  | [] => .ok []
  | (dim, step) :: rest =>
    match boundaries.lookup dim with
    | none => .error .keyError
    | some b => do
      let tail ← buildSpace boundaries rest
      .ok (arange b.1 b.2 step :: tail)

/-- `Grid.__init__` + `KSpaceGrid.__init__` (grid.py lines 51-65,
k_space_grid.py lines 47-68) on the explicit boundaries/spacing path:
first the key-consistency check of `Grid.__init__` — which only compares
the NUMBER of keys — then the `space` loop.  `numpy.meshgrid(...,
indexing='ij')` is only invoked for 1, 2 or 3 dimensions; for any other
dimensionality no branch runs and no error is raised, so construction
still succeeds (the `mesh` attribute is simply never assigned).
`_flat_grid` starts out as `None`. -/
def kSpaceGridInit (boundaries : List (String × (ℚ × ℚ)))
    (spacing : List (String × ℚ)) : Except PyError KSpaceGrid :=
  if spacing.length ≠ boundaries.length then .error .valueError
  else do
    let space ← buildSpace boundaries spacing
    .ok ⟨boundaries, spacing, space, none⟩

/-- Number of grid points: the product of the per-axis point counts. -/
def gridTotal (space : List (List ℚ)) : ℕ :=
  space.foldr (fun ax n => ax.length * n) 1

/-- Row `r` of the flattened mesh.  `numpy.meshgrid(*space, indexing='ij')`
followed by `flatten()` (row-major) and column stacking enumerates the
Cartesian product of the axes with the first axis varying slowest: the
coordinate of row `r` on the leading axis is entry `r / N'` of that axis,
where `N'` is the number of points of the remaining axes, and the
remaining coordinates are those of row `r % N'` of the remaining axes. -/
def rowOf (space : List (List ℚ)) (r : ℕ) : List ℚ :=
  match space with
  | [] => []
  | ax :: rest => ax.getD (r / gridTotal rest) 0 :: rowOf rest (r % gridTotal rest)

/-- Flat-grid computation of `KSpaceGrid.flat_grid` (the non-cached path,
k_space_grid.py lines 96-104): the flattened mesh for 1, 2 or 3
dimensions; for any other dimensionality none of the branches runs and
the empty array is returned. -/
def flatGridCompute (g : KSpaceGrid) : List (List ℚ) :=
  if 1 ≤ g.dimensions ∧ g.dimensions ≤ 3 then
    (List.range (gridTotal g.space)).map (rowOf g.space)
  else []

/-- `KSpaceGrid.flat_grid(cache_result)` (k_space_grid.py lines 80-108):
if `_flat_grid` is populated return it unconditionally; otherwise compute
the flat grid and, when `cache_result` is true, store it.  Returns the
result together with the updated object state. -/
def flatGrid (g : KSpaceGrid) (cacheResult : Bool) :
    List (List ℚ) × KSpaceGrid :=
  match g.cache with
  | some m => (m, g)
  | none =>
    let m := flatGridCompute g
    (m, if cacheResult then { g with cache := some m } else g)

/-- `KSpaceGrid.deallocate_flat_grid` (k_space_grid.py lines 75-78): reset
`_flat_grid` to `None`. -/
def deallocateFlatGrid (g : KSpaceGrid) : KSpaceGrid :=
  { g with cache := none }

/-- `Grid.get_point_index` (grid.py lines 77-96): fetch the flat grid,
check the query point has as many coordinates as the grid has dimensions
(else `ValueError`), then keep the flat-grid rows lying within half a
spacing of the point on every axis.  More than one match raises
`ValueError`; no match makes `index[0]` raise `IndexError`; otherwise the
unique matching row index is returned. -/
def getPointIndex (g : KSpaceGrid) (point : List ℚ) : Except PyError ℕ :=
  let fg := (flatGrid g false).1
  if point.length ≠ g.dimensions then .error .valueError
  else
    let svals := g.spacing.map Prod.snd
    let idx := (List.range fg.length).filter (fun r =>
      (List.range g.dimensions).all (fun i =>
        |(fg.getD r []).getD i 0 - point.getD i 0| < svals.getD i 0 / 2))
    if 1 < idx.length then .error .valueError
    else
      match idx with
      | [] => .error .indexError
      | r :: _ => .ok r

/-- The `space` loop raises `KeyError` whenever some spacing key is
missing from the boundaries dictionary. -/
theorem buildSpace_missing_key (boundaries : List (String × (ℚ × ℚ))) :
    ∀ spacing : List (String × ℚ),
    (∃ p ∈ spacing, boundaries.lookup p.1 = none) →
    buildSpace boundaries spacing = .error .keyError := by
  intro spacing
  induction spacing with
  | nil => rintro ⟨p, hp, _⟩; exact absurd hp (List.not_mem_nil p)
  | cons hd tl ih =>
    rintro ⟨p, hp, hnone⟩
    obtain ⟨dim, step⟩ := hd
    rcases List.mem_cons.1 hp with heq | htl
    · subst heq
      simp only [buildSpace, hnone]
    · cases hlk : boundaries.lookup dim with
      | none => simp only [buildSpace, hlk]
      | some b =>
        have : buildSpace boundaries tl = .error .keyError := ih ⟨p, htl, hnone⟩
        simp only [buildSpace, hlk, this, Bind.bind, Except.bind]

/-- The `space` loop succeeds whenever every spacing key is present in the
boundaries dictionary. -/
theorem buildSpace_all_keys (boundaries : List (String × (ℚ × ℚ))) :
    ∀ spacing : List (String × ℚ),
    (∀ p ∈ spacing, (boundaries.lookup p.1).isSome) →
    ∃ space, buildSpace boundaries spacing = .ok space := by
  intro spacing
  induction spacing with
  | nil => exact fun _ => ⟨[], rfl⟩
  | cons hd tl ih =>
    intro hall
    obtain ⟨dim, step⟩ := hd
    obtain ⟨b, hb⟩ := Option.isSome_iff_exists.1 (hall (dim, step) (List.mem_cons_self _ _))
    obtain ⟨tail, htail⟩ := ih (fun p hp => hall p (List.mem_cons_of_mem _ hp))
    exact ⟨arange b.1 b.2 step :: tail,
      by simp only [buildSpace, hb, htail, Bind.bind, Except.bind]⟩

/-- Claim C8 (amended): construction raises `ValueError` when the numbers
of boundary and spacing keys differ, raises `KeyError` when the counts
agree but some spacing key is missing from the boundaries, and succeeds
whenever the counts agree and every spacing key has a boundary entry —
regardless of the dimensionality. -/
theorem grid_init_key_consistency (boundaries : List (String × (ℚ × ℚ)))
    (spacing : List (String × ℚ)) :
    (spacing.length ≠ boundaries.length →
      kSpaceGridInit boundaries spacing = .error .valueError) ∧
    (spacing.length = boundaries.length →
      (∃ p ∈ spacing, boundaries.lookup p.1 = none) →
      kSpaceGridInit boundaries spacing = .error .keyError) ∧
    (spacing.length = boundaries.length →
      (∀ p ∈ spacing, (boundaries.lookup p.1).isSome) →
      (kSpaceGridInit boundaries spacing).isOk = true) := by
  refine ⟨fun hne => ?_, fun heq hmiss => ?_, fun heq hall => ?_⟩
  · simp only [kSpaceGridInit, if_pos hne]
  · have hcond : ¬ spacing.length ≠ boundaries.length := fun h => h heq
    simp only [kSpaceGridInit, if_neg hcond,
      buildSpace_missing_key boundaries spacing hmiss, Bind.bind, Except.bind]
  · have hcond : ¬ spacing.length ≠ boundaries.length := fun h => h heq
    obtain ⟨space, hspace⟩ := buildSpace_all_keys boundaries spacing hall
    simp only [kSpaceGridInit, if_neg hcond, hspace, Bind.bind, Except.bind]
    rfl

/-- Four-axis configuration: `x`, `y`, `z`, `w`, each with boundaries
`[0, 1)` and spacing `1`. -/
def boundariesFourAxes : List (String × (ℚ × ℚ)) :=
  [("x", (0, 1)), ("y", (0, 1)), ("z", (0, 1)), ("w", (0, 1))]

/-- Spacing table of the four-axis configuration. -/
def spacingFourAxes : List (String × ℚ) :=
  [("x", 1), ("y", 1), ("z", 1), ("w", 1)]

/-- Claim C8 (counterexample): a four-dimensional grid — dimensionality
outside `{1,2,3}` — is constructed WITHOUT error: `KSpaceGrid.__init__`
only branches on dimensions 1, 2, 3 when building the mesh and otherwise
falls through silently, so the claim that construction fails for
dimensionality outside `{1,2,3}` is false. -/
theorem grid_init_dim4_succeeds :
    (kSpaceGridInit boundariesFourAxes spacingFourAxes).isOk = true := by rfl

/-- Claim C8 witness: the three parts of the key-consistency theorem at
concrete inputs: mismatched key counts, a missing key with equal counts,
and a well-formed two-axis configuration. -/
theorem grid_init_key_consistency_witness :
    (kSpaceGridInit [("x", ((0 : ℚ), 1))] [("x", (1 : ℚ)), ("y", 1)] =
      .error .valueError) ∧
    (kSpaceGridInit [("x", ((0 : ℚ), 1))] [("y", (1 : ℚ))] = .error .keyError) ∧
    ((kSpaceGridInit [("x", ((0 : ℚ), 1)), ("y", (0, 1))]
        [("x", (1 : ℚ)), ("y", 1)]).isOk = true) := by
  refine ⟨(grid_init_key_consistency _ _).1 (by decide), ?_, ?_⟩
  · exact (grid_init_key_consistency _ _).2.1 (by decide)
      ⟨("y", 1), by decide, by decide⟩
  · exact (grid_init_key_consistency _ _).2.2 (by decide) (by decide)

/-- Claim C10: the flat-grid caching contract.  A non-caching call leaves
the object state unchanged; after a caching call the cache holds the
returned matrix and every later call (with or without caching) returns
the stored matrix unchanged without recomputation; deallocation clears
the cache, after which the next call recomputes the flat grid. -/
theorem flat_grid_caching_contract :
    (∀ g : KSpaceGrid, (flatGrid g false).2 = g) ∧
    (∀ g : KSpaceGrid,
      ((flatGrid g true).2).cache = some (flatGrid g true).1 ∧
      ∀ b : Bool, flatGrid ((flatGrid g true).2) b =
        ((flatGrid g true).1, (flatGrid g true).2)) ∧
    (∀ g : KSpaceGrid, (deallocateFlatGrid g).cache = none ∧
      ∀ b : Bool, (flatGrid (deallocateFlatGrid g) b).1 = flatGridCompute g) := by
  refine ⟨fun g => ?_, fun g => ?_, fun g => ⟨rfl, fun b => ?_⟩⟩
  · cases hc : g.cache <;> simp [flatGrid, hc]
  · cases hc : g.cache with
    | none =>
      constructor
      · simp [flatGrid, hc]
      · intro b; simp [flatGrid, hc]
    | some m =>
      constructor
      · simp [flatGrid, hc]
      · intro b; simp [flatGrid, hc]
  · cases hc : g.cache <;>
      simp [flatGrid, deallocateFlatGrid, flatGridCompute, KSpaceGrid.dimensions]

/-- Element `r` of `(List.range n).map f`, for `r < n`. -/
theorem getD_range_map {α : Type} (f : ℕ → α) (n r : ℕ) (d : α) (h : r < n) :
    ((List.range n).map f).getD r d = f r := by
  rw [List.getD_eq_getElem?_getD, List.getElem?_map, List.getElem?_range h]
  rfl

/-- Element `j` of `l.map f`, for `j < l.length`. -/
theorem getD_map_get {α β : Type} (f : α → β) (l : List α) (j : ℕ) (d : β)
    (h : j < l.length) : (l.map f).getD j d = f (l.get ⟨j, h⟩) := by
  rw [List.getD_eq_getElem?_getD, List.getElem?_map,
    List.getElem?_eq_getElem h]
  rfl

/-- Length of an arange. -/
theorem arange_length (start stop step : ℚ) :
    (arange start stop step).length = arangeLen start stop step := by
  rw [arange, List.length_map, List.length_range]

/-- Value of an arange entry. -/
theorem arange_getD (start stop step : ℚ) (p : ℕ)
    (hp : p < arangeLen start stop step) :
    (arange start stop step).getD p 0 = start + (p : ℚ) * step := by
  rw [arange]
  exact getD_range_map _ _ _ _ hp

/-- Distinct naturals differ by at least one after casting to `ℚ`. -/
theorem one_le_abs_natCast_sub {p q : ℕ} (h : p ≠ q) :
    (1 : ℚ) ≤ |(p : ℚ) - q| := by
  rcases lt_or_gt_of_ne h with hlt | hgt
  · have hq : (p : ℚ) + 1 ≤ q := by exact_mod_cast Nat.succ_le_of_lt hlt
    rw [abs_sub_comm, abs_of_nonneg (by linarith)]
    linarith
  · have hp : (q : ℚ) + 1 ≤ p := by exact_mod_cast Nat.succ_le_of_lt hgt
    rw [abs_of_nonneg (by linarith)]
    linarith

/-- Two arange entries within half a (positive) step of each other are the
same entry: consecutive entries differ by a full step. -/
theorem arange_sep (start stop step : ℚ) (hstep : 0 < step) (p q : ℕ)
    (hp : p < arangeLen start stop step) (hq : q < arangeLen start stop step)
    (h : |(arange start stop step).getD p 0 -
          (arange start stop step).getD q 0| < step / 2) : p = q := by
  rw [arange_getD _ _ _ p hp, arange_getD _ _ _ q hq] at h
  by_contra hne
  have h1 : (1 : ℚ) ≤ |(p : ℚ) - q| := one_le_abs_natCast_sub hne
  have h2 : start + (p : ℚ) * step - (start + (q : ℚ) * step) =
      ((p : ℚ) - q) * step := by ring
  rw [h2, abs_mul, abs_of_pos hstep] at h
  nlinarith

/-- A flat-grid row has one coordinate per axis. -/
theorem rowOf_length (space : List (List ℚ)) (r : ℕ) :
    (rowOf space r).length = space.length := by
  induction space generalizing r with
  | nil => rfl
  | cons ax rest ih => simp [rowOf, ih]

/-- Distinct flat-grid rows differ by at least a full spacing on some
axis: if two row indices agree to within half a spacing on every axis,
they are the same index.  `svals` lists the per-axis half-spacing
thresholds; the axes are assumed individually separated. -/
theorem rowOf_close_inj :
    ∀ (space : List (List ℚ)) (svals : List ℚ),
    space.length = svals.length →
    (∀ j (hj : j < space.length) (p q : ℕ),
      p < (space.get ⟨j, hj⟩).length → q < (space.get ⟨j, hj⟩).length →
      |(space.get ⟨j, hj⟩).getD p 0 - (space.get ⟨j, hj⟩).getD q 0| <
        svals.getD j 0 / 2 → p = q) →
    ∀ r r' : ℕ, r < gridTotal space → r' < gridTotal space →
    (∀ j, j < space.length →
      |(rowOf space r).getD j 0 - (rowOf space r').getD j 0| <
        svals.getD j 0 / 2) →
    r = r' := by
  intro space
  induction space with
  | nil =>
    intro svals _ _ r r' hr hr' _
    have : r = 0 := Nat.lt_one_iff.1 hr
    have : r' = 0 := Nat.lt_one_iff.1 hr'
    omega
  | cons ax rest ih =>
    intro svals hlen hsep r r' hr hr' hclose
    cases svals with
    | nil => exact absurd hlen (by simp)
    | cons s srest =>
      have hsplit : gridTotal (ax :: rest) = ax.length * gridTotal rest := rfl
      have hM : 0 < gridTotal rest := by
        rcases Nat.eq_zero_or_pos (gridTotal rest) with h0 | hpos
        · rw [hsplit, h0, Nat.mul_zero] at hr
          exact absurd hr (Nat.not_lt_zero r)
        · exact hpos
      have hrdiv : r / gridTotal rest < ax.length := by
        rw [Nat.div_lt_iff_lt_mul hM]
        rw [hsplit] at hr
        exact hr
      have hrdiv' : r' / gridTotal rest < ax.length := by
        rw [Nat.div_lt_iff_lt_mul hM]
        rw [hsplit] at hr'
        exact hr'
      have hhead := hclose 0 (by simp)
      have hdigit : r / gridTotal rest = r' / gridTotal rest := by
        apply hsep 0 (by simp) _ _ hrdiv hrdiv'
        simpa [rowOf] using hhead
      have htail : r % gridTotal rest = r' % gridTotal rest := by
        apply ih srest (by simpa using hlen)
          (fun j hj p q hp hq h => hsep (j + 1) (by simpa using hj) p q hp hq h)
          _ _ (Nat.mod_lt _ hM) (Nat.mod_lt _ hM)
        intro j hj
        have := hclose (j + 1) (by simpa using hj)
        simpa [rowOf] using this
      have e1 := Nat.div_add_mod r (gridTotal rest)
      have e2 := Nat.div_add_mod r' (gridTotal rest)
      have e3 : gridTotal rest * (r / gridTotal rest) =
          gridTotal rest * (r' / gridTotal rest) := by rw [hdigit]
      omega

/-- In-range `getD` agrees with `get`. -/
theorem getD_eq_get {α : Type} (l : List α) (j : ℕ) (d : α) (h : j < l.length) :
    l.getD j d = l.get ⟨j, h⟩ := by
  rw [List.getD_eq_getElem?_getD, List.getElem?_eq_getElem h]
  rfl

/-- Unpacking a successful `buildSpace`: one arange per spacing key, with
the boundaries looked up by that key. -/
theorem buildSpace_spec (boundaries : List (String × (ℚ × ℚ))) :
    ∀ (spacing : List (String × ℚ)) (space : List (List ℚ)),
    buildSpace boundaries spacing = .ok space →
    space.length = spacing.length ∧
    ∀ j (hj : j < spacing.length), ∃ b : ℚ × ℚ,
      boundaries.lookup (spacing.get ⟨j, hj⟩).1 = some b ∧
      space.getD j [] = arange b.1 b.2 (spacing.get ⟨j, hj⟩).2 := by
  intro spacing
  induction spacing with
  | nil =>
    intro space h
    simp only [buildSpace] at h
    cases h
    exact ⟨rfl, fun j hj => absurd hj (Nat.not_lt_zero j)⟩
  | cons hd tl ih =>
    intro space h
    obtain ⟨dim, step⟩ := hd
    cases hlk : boundaries.lookup dim with
    | none => rw [buildSpace, hlk] at h; cases h
    | some b =>
      rw [buildSpace, hlk] at h
      cases htl : buildSpace boundaries tl with
      | error e =>
        rw [htl] at h
        simp only [Bind.bind, Except.bind] at h
        cases h
      | ok tail =>
        rw [htl] at h
        simp only [Bind.bind, Except.bind] at h
        cases h
        obtain ⟨hlen, hspec⟩ := ih tail htl
        refine ⟨by simp [hlen], fun j hj => ?_⟩
        match j with
        | 0 => exact ⟨b, hlk, rfl⟩
        | j + 1 => exact hspec j (by simpa using hj)

/-- Unpacking a successful grid construction. -/
theorem kSpaceGridInit_inv (boundaries : List (String × (ℚ × ℚ)))
    (spacing : List (String × ℚ)) (g : KSpaceGrid)
    (h : kSpaceGridInit boundaries spacing = .ok g) :
    g.boundaries = boundaries ∧ g.spacing = spacing ∧ g.cache = none ∧
    buildSpace boundaries spacing = .ok g.space := by
  unfold kSpaceGridInit at h
  by_cases hlen : spacing.length ≠ boundaries.length
  · rw [if_pos hlen] at h; cases h
  · rw [if_neg hlen] at h
    cases hbs : buildSpace boundaries spacing with
    | error e =>
      rw [hbs] at h
      simp only [Bind.bind, Except.bind] at h
      cases h
    | ok space =>
      rw [hbs] at h
      simp only [Bind.bind, Except.bind] at h
      cases h
      exact ⟨rfl, rfl, rfl, rfl⟩

/-- A filter over `List.range N` whose predicate holds exactly at `i`. -/
theorem filter_range_eq_single (p : ℕ → Bool) :
    ∀ (N i : ℕ), i < N → p i = true → (∀ r, r < N → p r = true → r = i) →
    (List.range N).filter p = [i] := by
  intro N
  induction N with
  | zero => intro i hi; omega
  | succ N ih =>
    intro i hi hpi hu
    rw [List.range_succ, List.filter_append]
    rcases Nat.lt_or_ge i N with hlt | hge
    · have h1 : (List.range N).filter p = [i] :=
        ih i hlt hpi (fun r hr hpr => hu r (Nat.lt_succ_of_lt hr) hpr)
      have h2 : p N = false := by
        by_contra hpN
        have hN : p N = true := by
          cases hpn : p N
          · exact absurd hpn hpN
          · rfl
        have : N = i := hu N (Nat.lt_succ_self N) hN
        omega
      simp [h1, h2]
    · have hiN : i = N := by omega
      subst hiN
      have h1 : (List.range i).filter p = [] := by
        rw [List.filter_eq_nil_iff]
        intro a ha hpa
        have : a = i := hu a (Nat.lt_succ_of_lt (List.mem_range.1 ha)) hpa
        have := List.mem_range.1 ha
        omega
      simp [h1, hpi]

/-- Claim C7: on a constructed grid with positive spacings, looking up row
`i` of the flat grid returns index `i` — exactly one flat-grid row lies
within half a spacing of that point on every axis — and a query point
whose coordinate count differs from the grid dimensionality raises
`ValueError`. -/
theorem grid_point_roundtrip (boundaries : List (String × (ℚ × ℚ)))
    (spacing : List (String × ℚ)) (g : KSpaceGrid)
    (hinit : kSpaceGridInit boundaries spacing = .ok g)
    (hpos : ∀ p ∈ spacing, 0 < p.2) :
    (∀ i : ℕ, i < ((flatGrid g false).1).length →
      getPointIndex g (((flatGrid g false).1).getD i []) = .ok i) ∧
    (∀ point : List ℚ, point.length ≠ g.dimensions →
      getPointIndex g point = .error .valueError) := by
  obtain ⟨hb, hs, hc, hbs⟩ := kSpaceGridInit_inv boundaries spacing g hinit
  obtain ⟨hslen, hspec⟩ := buildSpace_spec boundaries spacing g.space hbs
  have hfg : (flatGrid g false).1 = flatGridCompute g := by
    simp [flatGrid, hc]
  constructor
  · intro i hi
    by_cases hdim : 1 ≤ g.dimensions ∧ g.dimensions ≤ 3
    case neg =>
      rw [hfg, flatGridCompute, if_neg hdim] at hi
      exact absurd hi (by simp)
    case pos =>
      have hfgc : flatGridCompute g =
          (List.range (gridTotal g.space)).map (rowOf g.space) := by
        rw [flatGridCompute, if_pos hdim]
      have hlenN : ((flatGrid g false).1).length = gridTotal g.space := by
        rw [hfg, hfgc]; simp
      have hiN : i < gridTotal g.space := hlenN ▸ hi
      have hrow : ∀ r : ℕ, r < gridTotal g.space →
          ((flatGrid g false).1).getD r [] = rowOf g.space r := by
        intro r hr
        rw [hfg, hfgc]
        exact getD_range_map _ _ _ _ hr
      have hdims : g.dimensions = g.space.length := by
        rw [KSpaceGrid.dimensions, hs, hslen]
      have hsvlen : (g.spacing.map Prod.snd).length = g.space.length := by
        rw [List.length_map, ← hdims, KSpaceGrid.dimensions]
      -- the per-axis spacing values and their positivity
      have hsval : ∀ j, (hj : j < g.space.length) →
          (g.spacing.map Prod.snd).getD j 0 =
            (spacing.get ⟨j, by rw [← hslen]; exact hj⟩).2 := by
        intro j hj
        have hj' : j < spacing.length := by rw [← hslen]; exact hj
        rw [hs]
        exact getD_map_get _ _ _ _ hj'
      have hsvalpos : ∀ j, (hj : j < g.space.length) →
          0 < (g.spacing.map Prod.snd).getD j 0 := by
        intro j hj
        rw [hsval j hj]
        exact hpos _ (List.get_mem _ _ _)
      -- per-axis separation property of the arange axes
      have hsep : ∀ j (hj : j < g.space.length) (p q : ℕ),
          p < (g.space.get ⟨j, hj⟩).length → q < (g.space.get ⟨j, hj⟩).length →
          |(g.space.get ⟨j, hj⟩).getD p 0 - (g.space.get ⟨j, hj⟩).getD q 0| <
            (g.spacing.map Prod.snd).getD j 0 / 2 → p = q := by
        intro j hj p q hp hq habs
        have hj' : j < spacing.length := by rw [← hslen]; exact hj
        obtain ⟨b, _, hax⟩ := hspec j hj'
        have hget : g.space.get ⟨j, hj⟩ = arange b.1 b.2 (spacing.get ⟨j, hj'⟩).2 := by
          rw [← getD_eq_get g.space j [] hj]
          exact hax
        rw [hget] at hp hq habs
        rw [arange_length] at hp hq
        rw [hsval j hj] at habs
        exact arange_sep b.1 b.2 _ (hpos _ (List.get_mem _ _ _)) p q hp hq habs
      -- the query point is row i itself
      have hpt := hrow i hiN
      have hptlen : ((flatGrid g false).1.getD i []).length = g.dimensions := by
        rw [hpt, rowOf_length, hdims]
      -- the predicate of the filter holds exactly at i
      have hpi : (List.range g.dimensions).all (fun ax =>
          decide (|(((flatGrid g false).1).getD i []).getD ax 0 -
            (((flatGrid g false).1).getD i []).getD ax 0| <
            ((g.spacing.map Prod.snd).getD ax 0) / 2)) = true := by
        rw [List.all_eq_true]
        intro ax hax
        rw [decide_eq_true_eq, sub_self, abs_zero]
        exact half_pos (hsvalpos ax (hdims ▸ List.mem_range.1 hax))
      have hu : ∀ r, r < ((flatGrid g false).1).length →
          (List.range g.dimensions).all (fun ax =>
            decide (|(((flatGrid g false).1).getD r []).getD ax 0 -
              (((flatGrid g false).1).getD i []).getD ax 0| <
              ((g.spacing.map Prod.snd).getD ax 0) / 2)) = true → r = i := by
        intro r hr hall
        rw [List.all_eq_true] at hall
        have hrN : r < gridTotal g.space := hlenN ▸ hr
        apply rowOf_close_inj g.space (g.spacing.map Prod.snd) hsvlen.symm hsep
          r i hrN hiN
        intro j hj
        have := hall j (List.mem_range.2 (hdims ▸ hj))
        rw [decide_eq_true_eq] at this
        rw [hrow r hrN, hpt] at this
        exact this
      -- assemble: the filtered index list is exactly [i]
      have hidx := filter_range_eq_single _ ((flatGrid g false).1).length i hi hpi hu
      simp only [getPointIndex]
      rw [if_neg (fun h => h hptlen)]
      rw [hidx]
      rfl
  · intro point hpt
    simp only [getPointIndex]
    rw [if_pos hpt]

/-- One-axis grid `x ∈ [0, 3)`, spacing `1` (three grid points). -/
def boundariesW : List (String × (ℚ × ℚ)) := [("x", (0, 3))]

/-- Spacing table of the one-axis witness grid. -/
def spacingW : List (String × ℚ) := [("x", 1)]

/-- The grid object built from the one-axis witness configuration. -/
def gridW : KSpaceGrid := ⟨boundariesW, spacingW, [arange 0 3 1], none⟩

/-- Claim C7 witness: on the concrete three-point grid, row 1 of the flat
grid looks up to index 1, and a two-coordinate query point raises
`ValueError`. -/
theorem grid_point_roundtrip_witness :
    kSpaceGridInit boundariesW spacingW = .ok gridW ∧
    (∀ p ∈ spacingW, 0 < p.2) ∧
    getPointIndex gridW (((flatGrid gridW false).1).getD 1 []) = .ok 1 ∧
    getPointIndex gridW [0, 0] = .error .valueError := by
  have hinitW : kSpaceGridInit boundariesW spacingW = .ok gridW := rfl
  have hposW : ∀ p ∈ spacingW, 0 < p.2 := by
    intro p hp
    simp only [spacingW, List.mem_singleton] at hp
    rw [hp]
    norm_num
  have hlen : ((flatGrid gridW false).1).length = 3 := by
    have h3 : arangeLen 0 3 1 = 3 := by
      rw [arangeLen]
      norm_num
      decide
    simp [flatGrid, gridW, flatGridCompute, KSpaceGrid.dimensions, spacingW,
      gridTotal, arange_length, h3]
  refine ⟨hinitW, hposW, ?_, ?_⟩
  · exact (grid_point_roundtrip boundariesW spacingW gridW hinitW hposW).1 1
      (by rw [hlen]; norm_num)
  · exact (grid_point_roundtrip boundariesW spacingW gridW hinitW hposW).2 [0, 0]
      (by simp [gridW, KSpaceGrid.dimensions, spacingW])

/-- Modelled from the spec: `numpy.linalg.eigh` is external library code
(not under src/); the spec fixes its contract as the full
eigen-decomposition of a Hermitian matrix with eigenvalues in ascending
order, so for a purely diagonal real matrix the returned eigenvalues are
the diagonal entries in ascending order. -/
def eighEigenvaluesDiag (d : List ℚ) : List ℚ :=
  d.insertionSort (· ≤ ·)

/-- Modelled from the spec: `scipy.sparse.linalg.eigsh` with
`which="SM"` is external library code (not under src/); the spec fixes
its contract as returning the requested number of smallest-magnitude
eigenpairs, so for a purely diagonal real matrix it keeps the `k`
diagonal entries of smallest absolute value. -/
def eigshEigenvaluesDiag (d : List ℚ) (k : ℕ) : List ℚ :=
  (d.insertionSort (fun a b => |a| ≤ |b|)).take k

/-- Result of `diagonalize_hamiltonian`: either the full decomposition or
the partial iterative solve, recording the solver parameters passed to
`eigsh` (`k`, `which`, `tol`). -/
inductive DiagResult where
  | full (eigenvalues : List ℚ)
  | iterative (eigenvalues : List ℚ) (numEigenvalues : ℕ) (which : String) (tol : ℚ)

/-- `MottWannierHamiltonian.diagonalize_hamiltonian` /
`MottWannier.diagonalize_hamiltonian` (identical bodies; lines 150-175 and
94-119) restricted to a purely diagonal input matrix with diagonal `d`:
if `num_eigenvalues` is `None`, call `numpy.linalg.eigh`; otherwise call
`scipy.sparse.linalg.eigsh` with `k = num_eigenvalues`, `which="SM"` and
`tol=1e-7`. -/
def diagonalizeHamiltonianDiag (d : List ℚ) (numEigenvalues : Option ℕ) :
    DiagResult :=
  match numEigenvalues with
  | none => .full (eighEigenvaluesDiag d)
  | some k => .iterative (eigshEigenvaluesDiag d k) k "SM" (1 / 10 ^ 7)

/-- The head of a `(≤)`-sorted list bounds its members from below. -/
theorem sorted_head_le {l : List ℚ} (hs : l.Sorted (· ≤ ·)) (h : l ≠ [])
    {x : ℚ} (hx : x ∈ l) : l.head h ≤ x := by
  cases l with
  | nil => exact absurd rfl h
  | cons a t =>
    rcases List.mem_cons.1 hx with heq | htl
    · simp [heq]
    · simpa using List.rel_of_sorted_cons hs x htl

/-- The last element of a `(≤)`-sorted list bounds its members from above. -/
theorem sorted_le_getLast :
    ∀ (l : List ℚ), l.Sorted (· ≤ ·) → ∀ (h : l ≠ []) (x : ℚ), x ∈ l →
      x ≤ l.getLast h
  | [], _, h, _, _ => absurd rfl h
  | [a], _, _, x, hx => by
    rw [List.mem_singleton] at hx
    rw [hx, List.getLast_singleton]
  | a :: b :: t, hs, _, x, hx => by
    rw [List.getLast_cons (by simp)]
    rcases List.mem_cons.1 hx with heq | htl
    · have hbt := List.getLast_mem (l := b :: t) (by simp)
      exact heq ▸ List.rel_of_sorted_cons hs _ hbt
    · exact sorted_le_getLast (b :: t) hs.of_cons (by simp) x htl

/-- Claim C6: with `num_eigenvalues` unset, `diagonalize_hamiltonian`
returns the full decomposition — for a diagonal matrix the ascending
rearrangement of the diagonal, whose head and last element are the
minimum and maximum diagonal entries — and with `num_eigenvalues = k` it
returns the `k` smallest-magnitude eigenvalues through the partial
iterative solver `eigsh` with `which="SM"` and fixed tolerance `1e-7`. -/
theorem diagonalize_hamiltonian_contract :
    (∀ d : List ℚ, ∃ evs : List ℚ,
      diagonalizeHamiltonianDiag d none = .full evs ∧
      evs.Perm d ∧ evs.Sorted (· ≤ ·) ∧
      ∀ h : evs ≠ [], (∀ x ∈ d, evs.head h ≤ x ∧ x ≤ evs.getLast h) ∧
        evs.head h ∈ d ∧ evs.getLast h ∈ d) ∧
    (∀ (d : List ℚ) (k : ℕ),
      diagonalizeHamiltonianDiag d (some k) =
        .iterative (eigshEigenvaluesDiag d k) k "SM" (1 / 10 ^ 7) ∧
      (eigshEigenvaluesDiag d k).length = min k d.length ∧
      ∀ x ∈ eigshEigenvaluesDiag d k,
        ∀ y ∈ (d.insertionSort (fun a b => |a| ≤ |b|)).drop k, |x| ≤ |y|) := by
  constructor
  · intro d
    refine ⟨eighEigenvaluesDiag d, rfl, List.perm_insertionSort _ _,
      List.sorted_insertionSort _ _, fun h => ?_⟩
    have hperm := List.perm_insertionSort (· ≤ · : ℚ → ℚ → Prop) d
    have hsort := List.sorted_insertionSort (· ≤ · : ℚ → ℚ → Prop) d
    refine ⟨fun x hx => ?_, ?_, ?_⟩
    · have hx' : x ∈ eighEigenvaluesDiag d := hperm.mem_iff.2 hx
      exact ⟨sorted_head_le hsort h hx', sorted_le_getLast _ hsort h x hx'⟩
    · exact hperm.mem_iff.1 (List.head_mem h)
    · exact hperm.mem_iff.1 (List.getLast_mem h)
  · intro d k
    haveI : IsTotal ℚ (fun a b => |a| ≤ |b|) := ⟨fun a b => le_total _ _⟩
    haveI : IsTrans ℚ (fun a b => |a| ≤ |b|) := ⟨fun a b c hab hbc => le_trans hab hbc⟩
    have hperm := List.perm_insertionSort (fun a b : ℚ => |a| ≤ |b|) d
    have hsort := List.sorted_insertionSort (fun a b : ℚ => |a| ≤ |b|) d
    refine ⟨rfl, ?_, ?_⟩
    · rw [eigshEigenvaluesDiag, List.length_take, hperm.length_eq]
    · intro x hx y hy
      have hsplit := List.take_append_drop k (d.insertionSort (fun a b => |a| ≤ |b|))
      have hpair : (d.insertionSort (fun a b => |a| ≤ |b|)).Pairwise
          (fun a b => |a| ≤ |b|) := hsort
      rw [← hsplit] at hpair
      exact (List.pairwise_append.1 hpair).2.2 x hx y hy

/-- Claim C6 witness: the diagonalization contract instantiated on the
diagonal `[3, 1, 2]`: the full path sorts it ascending with head `≤ 3`
and last `≥ 3`, and the partial path records `k = 2`, `which = "SM"` and
`tol = 1e-7`. -/
theorem diagonalize_hamiltonian_contract_witness :
    (3 : ℚ) ∈ ([3, 1, 2] : List ℚ) ∧
    (∃ evs : List ℚ, diagonalizeHamiltonianDiag [3, 1, 2] none = .full evs ∧
      ∃ h : evs ≠ [], evs.head h ≤ 3 ∧ 3 ≤ evs.getLast h) ∧
    diagonalizeHamiltonianDiag [3, 1, 2] (some 2) =
      .iterative (eigshEigenvaluesDiag [3, 1, 2] 2) 2 "SM" (1 / 10 ^ 7) := by
  have hmem : (3 : ℚ) ∈ ([3, 1, 2] : List ℚ) := by simp
  obtain ⟨hfull, hpart⟩ := diagonalize_hamiltonian_contract
  obtain ⟨evs, heq, hperm, _, hminmax⟩ := hfull [3, 1, 2]
  have hne : evs ≠ [] := by
    intro hnil
    have := hperm.length_eq
    rw [hnil] at this
    simp at this
  exact ⟨hmem, ⟨evs, heq, hne, (hminmax hne).1 3 hmem⟩, (hpart [3, 1, 2] 2).1⟩

/-- Claim C2 witness: the always-failing construction instantiated at the
documented exciton key `l1_l1` with a well-formed mass table. -/
theorem mottWannierHamiltonian_init_always_fails_witness :
    "l1_l1" ∈ bilayerExcitonKeys ∧
    excitonSetter "l1_l1" = .error .valueError ∧
    mottWannierHamiltonianInit ["kinetic_term"] "l1_l1"
      (some [("layer1", 1/2)]) (some [("layer1", 3/5)]) none none =
      .error .valueError := by
  have hmem : "l1_l1" ∈ bilayerExcitonKeys := by decide
  exact ⟨hmem, mottWannierHamiltonian_init_always_fails.2.1 "l1_l1" hmem,
    mottWannierHamiltonian_init_always_fails.2.2 ["kinetic_term"] "l1_l1"
      (some [("layer1", 1/2)]) (some [("layer1", 3/5)]) none none⟩

/-- Helper for `str.split("_")`: split a character list at underscores. -/
def splitUnderscoreAux (acc : List Char) : List Char → List (List Char)
  | [] => [acc]
  | c :: rest =>
    if c = '_' then acc :: splitUnderscoreAux [] rest
    else splitUnderscoreAux (acc ++ [c]) rest

/-- Python `s.split("_")`. -/
def splitUnderscore (s : String) : List String :=
  (splitUnderscoreAux [] s.toList).map List.asString

/-- `Effective2DCoulombPotential._get_dielectric_constants`
(effective_2d_coulomb.py, lines 46-88): validate the layer names, then
fetch the two substrate constants (chosen by which layer is the
reference/coupled one), the interlayer constant (each raising
`ValueError` when absent), and the two layer constants (fetched with
`dict[...]`, so a missing layer key raises `KeyError` — the `try` block
in the source catches `ValueError`, not `KeyError`). -/
def getDielectricConstants (dielectricConstants : BilayerStruct ℝ)
    (refLayer coupledLayer : String) : Except PyError (ℝ × ℝ × ℝ × ℝ × ℝ) :=
  if ¬ (refLayer ∈ ["layer1", "layer2"]) ∨ ¬ (coupledLayer ∈ ["layer1", "layer2"]) then
    .error .valueError
  else
    match dielectricConstants.lookup
        (if refLayer = "layer1" then "substrate1" else "substrate2") with
    | none => .error .valueError
    | some e1 =>
      match dielectricConstants.lookup
          (if coupledLayer = "layer1" then "substrate1" else "substrate2") with
      | none => .error .valueError
      | some e2 =>
        match dielectricConstants.lookup "interlayer" with
        | none => .error .valueError
        | some er =>
          match dielectricConstants.lookup refLayer with
          | none => .error .keyError
          | some el1 =>
            match dielectricConstants.lookup coupledLayer with
            | none => .error .keyError
            | some el2 => .ok (e1, e2, er, el1, el2)

/-- `Effective2DCoulombPotential._get_thicknesses` (lines 90-119): fetch
the reference-layer, coupled-layer and interlayer thicknesses, raising
`ValueError` when any is absent. -/
def getThicknesses (thicknesses : BilayerStruct ℝ) (refLayer coupledLayer : String) :
    Except PyError (ℝ × ℝ × ℝ) :=
  match thicknesses.lookup refLayer with
  | none => .error .valueError
  | some t1 =>
    match thicknesses.lookup coupledLayer with
    | none => .error .valueError
    | some t2 =>
      match thicknesses.lookup "interlayer" with
      | none => .error .valueError
      | some ti => .ok (t1, t2, ti)

/-- `Effective2DCoulombPotential._get_f_k` (lines 121-157): the auxiliary
function `f(k)` of the dielectric model.  The source fetches the
constants once and then evaluates the formula over the whole kernel
array; the embedding returns the scalar function applied entrywise. -/
noncomputable def getFK (dielectricConstants thicknesses : BilayerStruct ℝ)
    (refLayer coupledLayer : String) : Except PyError (ℝ → ℝ) := do
  let (e1, e2, er, el1, el2) ←
    getDielectricConstants dielectricConstants refLayer coupledLayer
  let e12 := e1 * e2
  let el12 := el1 * el2
  let (dl1, dl2, dinter) ← getThicknesses thicknesses refLayer coupledLayer
  return fun k =>
    (e1 + e2)
    + (e12 / er + er) * Real.tanh (k * dinter)
    + ((el1 + e12 / el1) + (el1 * e2 / er + e1 * er / el1) * Real.tanh (k * dinter)) *
        Real.tanh (k * dl1)
    + ((el2 + e12 / el2) + (el2 * e1 / er + e2 * er / el2) * Real.tanh (k * dinter)) *
        Real.tanh (k * dl2)
    + ((el2 * e1 / el1 + el1 * e2 / el2) + (el12 / er + e12 * er / el12) *
        Real.tanh (k * dinter)) * Real.tanh (k * dl1) * Real.tanh (k * dl2)

/-- `Effective2DCoulombPotential._get_intralayer_dielectric_function`
(lines 159-195): the dielectric screening for intralayer excitons,
`(cosh(k d₁)/denom) · (f(k)/f_denom(k))`, as a scalar function of the
kernel value. -/
noncomputable def getIntralayerDielectricFunction
    (dielectricConstants thicknesses : BilayerStruct ℝ)
    (refLayer coupledLayer : String) : Except PyError (ℝ → ℝ) := do
  let (e1, e2, er, el1, el2) ←
    getDielectricConstants dielectricConstants refLayer coupledLayer
  let el12 := el1 * el2
  let (dl1, dl2, dinter) ← getThicknesses thicknesses refLayer coupledLayer
  let fk ← getFK dielectricConstants thicknesses refLayer coupledLayer
  return fun k =>
    (Real.cosh (k * dl1) /
      (Real.cosh (k * dl1 / 2) ^ 2 * (1 + e1 / el1 * Real.tanh (k * dl1 / 2)))) *
    (fk k /
      (1 + e2 / er * Real.tanh (k * dinter)
        + (e2 / el2 + el2 / er * Real.tanh (k * dinter)) * Real.tanh (k * dl2)
        + (e2 / el1 + er / el1 * Real.tanh (k * dinter)) * Real.tanh (k * dl1 / 2)
        + (el2 / el1 + e2 * er / el12 * Real.tanh (k * dinter)) *
            Real.tanh (k * dl2) * Real.tanh (k * dl1 / 2)))

/-- `Effective2DCoulombPotential._get_interlayer_dielectric_function`
(lines 197-229): the dielectric screening for interlayer excitons. -/
noncomputable def getInterlayerDielectricFunction
    (dielectricConstants thicknesses : BilayerStruct ℝ)
    (refLayer coupledLayer : String) : Except PyError (ℝ → ℝ) := do
  let (e1, e2, _, el1, el2) ←
    getDielectricConstants dielectricConstants refLayer coupledLayer
  let (dl1, dl2, dinter) ← getThicknesses thicknesses refLayer coupledLayer
  let fk ← getFK dielectricConstants thicknesses refLayer coupledLayer
  return fun k =>
    Real.cosh (k * dinter) * fk k *
      ((Real.cosh (k * dl1) * Real.cosh (k * dl2)) /
        (Real.cosh (k * dl1 / 2) * Real.cosh (k * dl2 / 2) *
          (1 + e1 / el1 * Real.tanh (k * dl1 / 2)) *
          (1 + e2 / el2 * Real.tanh (k * dl2 / 2))))

/-- `Effective2DCoulombPotential.generate_coulomb_kernel` (lines 274-286):
the pairwise matrix `(x_i - x_j)² + (y_i - y_j)²` over the first two
flat-grid columns (for a 2-D grid, all its columns), built in the source
from two `np.add.outer` differences. -/
def generateCoulombKernel {n : ℕ} (fg : Fin n → Fin 2 → ℝ) (i j : Fin n) : ℝ :=
  (fg i 0 - fg j 0) ^ 2 + (fg i 1 - fg j 1) ^ 2

/-- `Effective2DCoulombPotential.get_hamiltonian_term` (lines 231-272):
require the `exciton` keyword (else `ValueError`); build the Coulomb
kernel; parse the exciton into reference and coupled layers; compute the
dielectric screening entrywise on the kernel — in the intralayer case the
coupled layer passed down is the OTHER layer; compute `q_c` as the norm
of the difference of the first two flat-grid rows; overwrite the kernel
diagonal with `q_c/4`; return `(q_c/2π)² · 4π / (kernel ⊙ ε)`.  The grid
must have at least two rows (`flat_grid()[1]` would raise otherwise),
hence the `n + 2` index type. -/
noncomputable def coulombGetHamiltonianTerm {n : ℕ}
    (dielectricConstants thicknesses : BilayerStruct ℝ)
    (fg : Fin (n + 2) → Fin 2 → ℝ) (exciton : Option String) :
    Except PyError (Fin (n + 2) → Fin (n + 2) → ℝ) := do
  let exc ← match exciton with
    | none => .error .valueError
    | some e => pure e
  let kGrid := generateCoulombKernel fg
  let refLayer ← excitonsKeyToSystemKey ((splitUnderscore exc).getD 0 "")
  let coupledLayer ← excitonsKeyToSystemKey ((splitUnderscore exc).getD 1 "")
  let epsf ←
    if refLayer = coupledLayer then
      getIntralayerDielectricFunction dielectricConstants thicknesses refLayer
        (if refLayer = "layer2" then "layer1" else "layer2")
    else
      getInterlayerDielectricFunction dielectricConstants thicknesses
        refLayer coupledLayer
  let eps := fun i j => epsf (kGrid i j)
  let qc := Real.sqrt ((fg 1 0 - fg 0 0) ^ 2 + (fg 1 1 - fg 0 1) ^ 2)
  let kGridFilled := fun i j : Fin (n + 2) => if i = j then qc / 4 else kGrid i j
  return fun i j =>
    (qc / (2 * Real.pi)) ^ 2 * (4 * Real.pi / (kGridFilled i j * eps i j))

/-- Successful dielectric-constant fetch, given every lookup succeeds. -/
theorem getDielectricConstants_ok (dc : BilayerStruct ℝ) (ref coup : String)
    (e1 e2 er el1 el2 : ℝ)
    (href : ref ∈ ["layer1", "layer2"]) (hcoup : coup ∈ ["layer1", "layer2"])
    (h1 : dc.lookup (if ref = "layer1" then "substrate1" else "substrate2") = some e1)
    (h2 : dc.lookup (if coup = "layer1" then "substrate1" else "substrate2") = some e2)
    (h3 : dc.lookup "interlayer" = some er)
    (h4 : dc.lookup ref = some el1)
    (h5 : dc.lookup coup = some el2) :
    getDielectricConstants dc ref coup = .ok (e1, e2, er, el1, el2) := by
  rw [getDielectricConstants, if_neg (by push_neg; exact ⟨href, hcoup⟩), h1, h2, h3, h4, h5]

/-- Successful thickness fetch, given every lookup succeeds. -/
theorem getThicknesses_ok (th : BilayerStruct ℝ) (ref coup : String)
    (t1 t2 ti : ℝ)
    (h1 : th.lookup ref = some t1) (h2 : th.lookup coup = some t2)
    (h3 : th.lookup "interlayer" = some ti) :
    getThicknesses th ref coup = .ok (t1, t2, ti) := by
  rw [getThicknesses, h1, h2, h3]

/-- With every required table entry present, `_get_f_k` and the two
dielectric functions all succeed, for reference/coupled layers drawn from
the two canonical layer names. -/
theorem dielectricFunctions_exist (dc th : BilayerStruct ℝ)
    (h1 : (dc.lookup "substrate1").isSome) (h2 : (dc.lookup "substrate2").isSome)
    (h3 : (dc.lookup "interlayer").isSome) (h4 : (dc.lookup "layer1").isSome)
    (h5 : (dc.lookup "layer2").isSome)
    (h6 : (th.lookup "layer1").isSome) (h7 : (th.lookup "layer2").isSome)
    (h8 : (th.lookup "interlayer").isSome)
    (ref coup : String)
    (href : ref = "layer1" ∨ ref = "layer2")
    (hcoup : coup = "layer1" ∨ coup = "layer2") :
    (∃ f, getFK dc th ref coup = .ok f) ∧
    (∃ f, getIntralayerDielectricFunction dc th ref coup = .ok f) ∧
    (∃ f, getInterlayerDielectricFunction dc th ref coup = .ok f) := by
  obtain ⟨s1, hs1⟩ := Option.isSome_iff_exists.1 h1
  obtain ⟨s2, hs2⟩ := Option.isSome_iff_exists.1 h2
  obtain ⟨ir, hir⟩ := Option.isSome_iff_exists.1 h3
  obtain ⟨v1, hv1⟩ := Option.isSome_iff_exists.1 h4
  obtain ⟨v2, hv2⟩ := Option.isSome_iff_exists.1 h5
  obtain ⟨t1, ht1⟩ := Option.isSome_iff_exists.1 h6
  obtain ⟨t2, ht2⟩ := Option.isSome_iff_exists.1 h7
  obtain ⟨ti, hti⟩ := Option.isSome_iff_exists.1 h8
  have hmem1 : ("layer1" : String) ∈ ["layer1", "layer2"] := by simp
  have hmem2 : ("layer2" : String) ∈ ["layer1", "layer2"] := by simp
  rcases href with rfl | rfl <;> rcases hcoup with rfl | rfl
  case inl.inl =>
    have hdc := getDielectricConstants_ok dc "layer1" "layer1" s1 s1 ir v1 v1
      hmem1 hmem1 (by simpa using hs1) (by simpa using hs1) hir hv1 hv1
    have hth := getThicknesses_ok th "layer1" "layer1" t1 t1 ti ht1 ht1 hti
    obtain ⟨F, hF⟩ : ∃ f, getFK dc th "layer1" "layer1" = .ok f := by
      simp only [getFK, hdc, hth, Bind.bind, Except.bind]
      exact ⟨_, rfl⟩
    refine ⟨⟨F, hF⟩, ?_, ?_⟩
    · simp only [getIntralayerDielectricFunction, hdc, hth, hF, Bind.bind, Except.bind]
      exact ⟨_, rfl⟩
    · simp only [getInterlayerDielectricFunction, hdc, hth, hF, Bind.bind, Except.bind]
      exact ⟨_, rfl⟩
  case inl.inr =>
    have hdc := getDielectricConstants_ok dc "layer1" "layer2" s1 s2 ir v1 v2
      hmem1 hmem2 (by simpa using hs1) (by simpa using hs2) hir hv1 hv2
    have hth := getThicknesses_ok th "layer1" "layer2" t1 t2 ti ht1 ht2 hti
    obtain ⟨F, hF⟩ : ∃ f, getFK dc th "layer1" "layer2" = .ok f := by
      simp only [getFK, hdc, hth, Bind.bind, Except.bind]
      exact ⟨_, rfl⟩
    refine ⟨⟨F, hF⟩, ?_, ?_⟩
    · simp only [getIntralayerDielectricFunction, hdc, hth, hF, Bind.bind, Except.bind]
      exact ⟨_, rfl⟩
    · simp only [getInterlayerDielectricFunction, hdc, hth, hF, Bind.bind, Except.bind]
      exact ⟨_, rfl⟩
  case inr.inl =>
    have hdc := getDielectricConstants_ok dc "layer2" "layer1" s2 s1 ir v2 v1
      hmem2 hmem1 (by simpa using hs2) (by simpa using hs1) hir hv2 hv1
    have hth := getThicknesses_ok th "layer2" "layer1" t2 t1 ti ht2 ht1 hti
    obtain ⟨F, hF⟩ : ∃ f, getFK dc th "layer2" "layer1" = .ok f := by
      simp only [getFK, hdc, hth, Bind.bind, Except.bind]
      exact ⟨_, rfl⟩
    refine ⟨⟨F, hF⟩, ?_, ?_⟩
    · simp only [getIntralayerDielectricFunction, hdc, hth, hF, Bind.bind, Except.bind]
      exact ⟨_, rfl⟩
    · simp only [getInterlayerDielectricFunction, hdc, hth, hF, Bind.bind, Except.bind]
      exact ⟨_, rfl⟩
  case inr.inr =>
    have hdc := getDielectricConstants_ok dc "layer2" "layer2" s2 s2 ir v2 v2
      hmem2 hmem2 (by simpa using hs2) (by simpa using hs2) hir hv2 hv2
    have hth := getThicknesses_ok th "layer2" "layer2" t2 t2 ti ht2 ht2 hti
    obtain ⟨F, hF⟩ : ∃ f, getFK dc th "layer2" "layer2" = .ok f := by
      simp only [getFK, hdc, hth, Bind.bind, Except.bind]
      exact ⟨_, rfl⟩
    refine ⟨⟨F, hF⟩, ?_, ?_⟩
    · simp only [getIntralayerDielectricFunction, hdc, hth, hF, Bind.bind, Except.bind]
      exact ⟨_, rfl⟩
    · simp only [getInterlayerDielectricFunction, hdc, hth, hF, Bind.bind, Except.bind]
      exact ⟨_, rfl⟩

/-- Evaluation of `get_hamiltonian_term` once the exciton parses and the
dielectric dispatch succeeds: the pipeline yields exactly the final
formula of the source. -/
theorem coulombGetHamiltonianTerm_eq {n : ℕ}
    (dc th : BilayerStruct ℝ) (fg : Fin (n + 2) → Fin 2 → ℝ)
    (exc ref coup : String) (epsf : ℝ → ℝ)
    (hr : excitonsKeyToSystemKey ((splitUnderscore exc).getD 0 "") = .ok ref)
    (hc : excitonsKeyToSystemKey ((splitUnderscore exc).getD 1 "") = .ok coup)
    (hd : (if ref = coup then
        getIntralayerDielectricFunction dc th ref
          (if ref = "layer2" then "layer1" else "layer2")
      else getInterlayerDielectricFunction dc th ref coup) = .ok epsf) :
    coulombGetHamiltonianTerm dc th fg (some exc) = .ok (fun i j =>
      (Real.sqrt ((fg 1 0 - fg 0 0) ^ 2 + (fg 1 1 - fg 0 1) ^ 2) /
        (2 * Real.pi)) ^ 2 *
      (4 * Real.pi /
        ((if i = j then
            Real.sqrt ((fg 1 0 - fg 0 0) ^ 2 + (fg 1 1 - fg 0 1) ^ 2) / 4
          else generateCoulombKernel fg i j) *
          epsf (generateCoulombKernel fg i j)))) := by
  by_cases hrc : ref = coup
  · rw [if_pos hrc] at hd
    simp only [coulombGetHamiltonianTerm, hr, hc, hd, if_pos hrc, Bind.bind,
      Except.bind, Except.pure, pure]
  · rw [if_neg hrc] at hd
    simp only [coulombGetHamiltonianTerm, hr, hc, hd, if_neg hrc, Bind.bind,
      Except.bind, Except.pure, pure]

/-- Claim C4: for a 2-D grid with at least two points, well-stocked
dielectric/thickness tables and a valid exciton selector, the
effective-2D-Coulomb term succeeds and every entry of the returned matrix
equals `(q_c/2π)² · 4π / (K' ⊙ ε)`, where `K[i,j] = ‖fg_i - fg_j‖²` is the
pairwise squared-distance kernel, `q_c = ‖fg_1 - fg_0‖` is the distance
between the first two flat-grid points, `K'` is `K` with every diagonal
entry replaced by `q_c/4` before the division, and `ε` is the dielectric
screening function selected for the exciton, evaluated on the kernel. -/
theorem coulomb_term_formula {n : ℕ} (dc th : BilayerStruct ℝ)
    (fg : Fin (n + 2) → Fin 2 → ℝ) (exc : String)
    (hexc : exc ∈ bilayerExcitonKeys)
    (h1 : (dc.lookup "substrate1").isSome) (h2 : (dc.lookup "substrate2").isSome)
    (h3 : (dc.lookup "interlayer").isSome) (h4 : (dc.lookup "layer1").isSome)
    (h5 : (dc.lookup "layer2").isSome)
    (h6 : (th.lookup "layer1").isSome) (h7 : (th.lookup "layer2").isSome)
    (h8 : (th.lookup "interlayer").isSome) :
    ∃ (W : Fin (n + 2) → Fin (n + 2) → ℝ) (epsf : ℝ → ℝ)
      (refLayer coupledLayer : String),
      excitonsKeyToSystemKey ((splitUnderscore exc).getD 0 "") = .ok refLayer ∧
      excitonsKeyToSystemKey ((splitUnderscore exc).getD 1 "") = .ok coupledLayer ∧
      (if refLayer = coupledLayer then
          getIntralayerDielectricFunction dc th refLayer
            (if refLayer = "layer2" then "layer1" else "layer2")
        else getInterlayerDielectricFunction dc th refLayer coupledLayer) =
        .ok epsf ∧
      coulombGetHamiltonianTerm dc th fg (some exc) = .ok W ∧
      ∀ i j : Fin (n + 2), W i j =
        (Real.sqrt (∑ d : Fin 2, (fg 1 d - fg 0 d) ^ 2) / (2 * Real.pi)) ^ 2 *
        (4 * Real.pi /
          ((if i = j then
              Real.sqrt (∑ d : Fin 2, (fg 1 d - fg 0 d) ^ 2) / 4
            else ∑ d : Fin 2, (fg i d - fg j d) ^ 2) *
            epsf (∑ d : Fin 2, (fg i d - fg j d) ^ 2))) := by
  have hsum : ∀ i j : Fin (n + 2),
      (∑ d : Fin 2, (fg i d - fg j d) ^ 2) = generateCoulombKernel fg i j := by
    intro i j
    rw [Fin.sum_univ_two]
    rfl
  have hbase := dielectricFunctions_exist dc th h1 h2 h3 h4 h5 h6 h7 h8
  have hmain : ∀ refLayer coupledLayer : String,
      (refLayer = "layer1" ∨ refLayer = "layer2") →
      (coupledLayer = "layer1" ∨ coupledLayer = "layer2") →
      excitonsKeyToSystemKey ((splitUnderscore exc).getD 0 "") = .ok refLayer →
      excitonsKeyToSystemKey ((splitUnderscore exc).getD 1 "") = .ok coupledLayer →
      ∃ (W : Fin (n + 2) → Fin (n + 2) → ℝ) (epsf : ℝ → ℝ)
        (r c : String),
        excitonsKeyToSystemKey ((splitUnderscore exc).getD 0 "") = .ok r ∧
        excitonsKeyToSystemKey ((splitUnderscore exc).getD 1 "") = .ok c ∧
        (if r = c then
            getIntralayerDielectricFunction dc th r
              (if r = "layer2" then "layer1" else "layer2")
          else getInterlayerDielectricFunction dc th r c) = .ok epsf ∧
        coulombGetHamiltonianTerm dc th fg (some exc) = .ok W ∧
        ∀ i j : Fin (n + 2), W i j =
          (Real.sqrt (∑ d : Fin 2, (fg 1 d - fg 0 d) ^ 2) / (2 * Real.pi)) ^ 2 *
          (4 * Real.pi /
            ((if i = j then
                Real.sqrt (∑ d : Fin 2, (fg 1 d - fg 0 d) ^ 2) / 4
              else ∑ d : Fin 2, (fg i d - fg j d) ^ 2) *
              epsf (∑ d : Fin 2, (fg i d - fg j d) ^ 2))) := by
    intro refLayer coupledLayer href hcoup hr hc
    by_cases hrc : refLayer = coupledLayer
    · obtain ⟨epsf, hepsf⟩ := (hbase refLayer
        (if refLayer = "layer2" then "layer1" else "layer2") href
        (by rcases href with rfl | rfl <;> simp)).2.1
      have hd : (if refLayer = coupledLayer then
          getIntralayerDielectricFunction dc th refLayer
            (if refLayer = "layer2" then "layer1" else "layer2")
        else getInterlayerDielectricFunction dc th refLayer coupledLayer) =
          .ok epsf := by rw [if_pos hrc]; exact hepsf
      refine ⟨_, epsf, refLayer, coupledLayer, hr, hc, hd,
        coulombGetHamiltonianTerm_eq dc th fg exc refLayer coupledLayer epsf hr hc hd,
        fun i j => ?_⟩
      rw [hsum, hsum]
      rfl
    · obtain ⟨epsf, hepsf⟩ := (hbase refLayer coupledLayer href hcoup).2.2
      have hd : (if refLayer = coupledLayer then
          getIntralayerDielectricFunction dc th refLayer
            (if refLayer = "layer2" then "layer1" else "layer2")
        else getInterlayerDielectricFunction dc th refLayer coupledLayer) =
          .ok epsf := by rw [if_neg hrc]; exact hepsf
      refine ⟨_, epsf, refLayer, coupledLayer, hr, hc, hd,
        coulombGetHamiltonianTerm_eq dc th fg exc refLayer coupledLayer epsf hr hc hd,
        fun i j => ?_⟩
      rw [hsum, hsum]
      rfl
  simp only [bilayerExcitonKeys, List.mem_cons, List.not_mem_nil, or_false] at hexc
  rcases hexc with h | h | h | h <;> subst h
  · exact hmain "layer1" "layer1" (Or.inl rfl) (Or.inl rfl) rfl rfl
  · exact hmain "layer1" "layer2" (Or.inl rfl) (Or.inr rfl) rfl rfl
  · exact hmain "layer2" "layer1" (Or.inr rfl) (Or.inl rfl) rfl rfl
  · exact hmain "layer2" "layer2" (Or.inr rfl) (Or.inr rfl) rfl rfl

/-- The dielectric-constant table of the reference test configuration
(`{substrate1: 1, layer1: 15.1, interlayer: 1, layer2: 16.5,
substrate2: 3.9}`). -/
noncomputable def dielectricTest : BilayerStruct ℝ :=
  [("substrate1", 1), ("layer1", 15.1), ("interlayer", 1), ("layer2", 16.5),
   ("substrate2", 3.9)]

/-- The thickness table of the reference test configuration
(`0.645` for both layers, zero interlayer spacing). -/
noncomputable def thicknessesTest : BilayerStruct ℝ :=
  [("layer1", 0.645), ("interlayer", 0), ("layer2", 0.645)]

/-- A two-point, two-column flat grid. -/
noncomputable def fgTest : Fin 2 → Fin 2 → ℝ := ![![0, 0], ![1, 0]]

/-- Claim C4 witness: the Coulomb-term formula instantiated on the
two-point grid with the reference tables and the intralayer exciton
`l1_l1`. -/
theorem coulomb_term_formula_witness :
    "l1_l1" ∈ bilayerExcitonKeys ∧
    (dielectricTest.lookup "substrate1").isSome = true ∧
    (dielectricTest.lookup "substrate2").isSome = true ∧
    (dielectricTest.lookup "interlayer").isSome = true ∧
    (dielectricTest.lookup "layer1").isSome = true ∧
    (dielectricTest.lookup "layer2").isSome = true ∧
    (thicknessesTest.lookup "layer1").isSome = true ∧
    (thicknessesTest.lookup "layer2").isSome = true ∧
    (thicknessesTest.lookup "interlayer").isSome = true ∧
    ∃ W : Fin 2 → Fin 2 → ℝ,
      coulombGetHamiltonianTerm dielectricTest thicknessesTest fgTest
        (some "l1_l1") = .ok W := by
  have hmem : "l1_l1" ∈ bilayerExcitonKeys := by simp [bilayerExcitonKeys]
  obtain ⟨W, epsf, r, c, -, -, -, hW, -⟩ :=
    coulomb_term_formula (n := 0) dielectricTest thicknessesTest fgTest "l1_l1"
      hmem rfl rfl rfl rfl rfl rfl rfl rfl
  exact ⟨hmem, rfl, rfl, rfl, rfl, rfl, rfl, rfl, rfl, W, hW⟩

/-- Term instance built by `MottWannier.__init__` (mott_wannier.py): a
`FreeExciton` holding its reduced-mass table, or an
`Effective2DCoulombPotential` holding the thickness and dielectric
tables as given — their CONTENTS are not validated at construction. -/
inductive MWInstance where
  | freeExc (table : BilayerStruct ℚ)
  | coulomb (thicknesses dielectric : BilayerStruct ℝ)

/-- One step of the term loop of `MottWannier.__init__` (mott_wannier.py,
lines 54-67): `free_exciton` requires both mass tables to be given
(`ValueError` otherwise) and constructs `FreeExciton`;
`effective_2d_coulomb` requires the thickness and dielectric tables to be
given (`ValueError` otherwise) and constructs
`Effective2DCoulombPotential`, which merely stores the two tables; other
names are skipped.  Returns the `term_to_instance` entries added by this
step. -/
def mottWannierStep (electron hole : Option (BilayerStruct ℚ))
    (thicknesses dielectric : Option (BilayerStruct ℝ)) (t : String) :
    Except PyError (List (String × MWInstance)) :=
  if t = "free_exciton" then
    match electron, hole with
    | some e, some h => (freeExcitonInit e h).map (fun table => [(t, .freeExc table)])
    | some _, none => .error .valueError
    | none, some _ => .error .valueError
    | none, none => .error .valueError
  else if t = "effective_2d_coulomb" then
    match thicknesses, dielectric with
    | some th, some dc => .ok [(t, .coulomb th dc)]
    | some _, none => .error .valueError
    | none, some _ => .error .valueError
    | none, none => .error .valueError
  else .ok []

/-- Term loop of `MottWannier.__init__`, accumulating the
`term_to_instance` dictionary in list order. -/
def mottWannierTermLoop (electron hole : Option (BilayerStruct ℚ))
    (thicknesses dielectric : Option (BilayerStruct ℝ)) :
    List String → List (String × MWInstance) →
    Except PyError (List (String × MWInstance))
  | [], acc => .ok acc
  | t :: rest, acc => do
    let add ← mottWannierStep electron hole thicknesses dielectric t
    mottWannierTermLoop electron hole thicknesses dielectric rest (acc ++ add)

/-- `MottWannier.__init__` (mott_wannier.py, lines 36-67): base init
(cannot fail) followed by the term loop. -/
def mottWannierInit (terms : List String)
    (electron hole : Option (BilayerStruct ℚ))
    (thicknesses dielectric : Option (BilayerStruct ℝ)) :
    Except PyError (List (String × MWInstance)) :=
  mottWannierTermLoop electron hole thicknesses dielectric terms []

/-- Step of the term loop on `free_exciton` when an effective-mass table
is absent: the presence check raises `ValueError`. -/
theorem mottWannierStep_free_exciton_absent (electron hole : Option (BilayerStruct ℚ))
    (thicknesses dielectric : Option (BilayerStruct ℝ))
    (habs : electron.isNone ∨ hole.isNone) :
    mottWannierStep electron hole thicknesses dielectric "free_exciton" =
      .error .valueError := by
  rw [mottWannierStep.eq_def, if_pos rfl]
  cases electron with
  | none => cases hole <;> rfl
  | some e =>
    cases hole with
    | none => rfl
    | some h => rcases habs with h' | h' <;> simp [Option.isNone] at h'

/-- Step of the term loop on `effective_2d_coulomb` when the thickness or
dielectric table is absent: the presence check raises `ValueError`. -/
theorem mottWannierStep_coulomb_absent (electron hole : Option (BilayerStruct ℚ))
    (thicknesses dielectric : Option (BilayerStruct ℝ))
    (habs : thicknesses.isNone ∨ dielectric.isNone) :
    mottWannierStep electron hole thicknesses dielectric "effective_2d_coulomb" =
      .error .valueError := by
  rw [mottWannierStep.eq_def, if_neg (by decide), if_pos rfl]
  cases thicknesses with
  | none => cases dielectric <;> rfl
  | some th =>
    cases dielectric with
    | none => rfl
    | some dc => rcases habs with h' | h' <;> simp [Option.isNone] at h'

/-- If some requested term's step fails with `ValueError` and every
requested term's step either succeeds or fails with `ValueError`, the
term loop of `MottWannier.__init__` raises `ValueError`. -/
theorem mottWannierTermLoop_valueError (electron hole : Option (BilayerStruct ℚ))
    (thicknesses dielectric : Option (BilayerStruct ℝ)) :
    ∀ (ts : List String) (acc : List (String × MWInstance)) (bad : String),
      bad ∈ ts →
      mottWannierStep electron hole thicknesses dielectric bad = .error .valueError →
      (∀ t ∈ ts, mottWannierStep electron hole thicknesses dielectric t =
          .error .valueError ∨
        ∃ l, mottWannierStep electron hole thicknesses dielectric t = .ok l) →
      mottWannierTermLoop electron hole thicknesses dielectric ts acc =
        .error .valueError
  | [], _, bad, hm, _, _ => absurd hm (List.not_mem_nil bad)
  | t :: rest, acc, bad, hm, hbad, hall => by
    rw [mottWannierTermLoop]
    rcases hall t (List.mem_cons_self t rest) with herr | ⟨l, hok⟩
    · simp [Bind.bind, Except.bind, herr]
    · simp only [Bind.bind, Except.bind, hok]
      have hrest : bad ∈ rest := by
        rcases List.mem_cons.1 hm with heq | h
        · subst heq
          rw [hbad] at hok
          exact Except.noConfusion hok
        · exact h
      exact mottWannierTermLoop_valueError electron hole thicknesses dielectric rest
        (acc ++ l) bad hrest hbad (fun u hu => hall u (List.mem_cons_of_mem t hu))

/-- If some requested term's step fails with any error, the term loop of
`MottWannier.__init__` fails. -/
theorem mottWannierTermLoop_fails (electron hole : Option (BilayerStruct ℚ))
    (thicknesses dielectric : Option (BilayerStruct ℝ)) :
    ∀ (ts : List String) (acc : List (String × MWInstance)) (bad : String),
      bad ∈ ts →
      (∃ e, mottWannierStep electron hole thicknesses dielectric bad = .error e) →
      (mottWannierTermLoop electron hole thicknesses dielectric ts acc).isOk = false
  | [], _, bad, hm, _ => absurd hm (List.not_mem_nil bad)
  | t :: rest, acc, bad, hm, hbad => by
    rw [mottWannierTermLoop]
    cases hstep : mottWannierStep electron hole thicknesses dielectric t with
    | error e => simp [Bind.bind, Except.bind, hstep, Except.isOk, Except.toBool]
    | ok l =>
      simp only [Bind.bind, Except.bind, hstep]
      have hrest : bad ∈ rest := by
        rcases List.mem_cons.1 hm with heq | h
        · subst heq
          obtain ⟨e, he⟩ := hbad
          rw [he] at hstep
          exact Except.noConfusion hstep
        · exact h
      exact mottWannierTermLoop_fails electron hole thicknesses dielectric rest
        (acc ++ l) bad hrest hbad

/-- Claim C9 (amended): the per-term table presence checks of
`MottWannier.__init__` (mott_wannier.py, lines 55-67).
(1) When `free_exciton` is requested and an effective-mass table is absent
(`None`), construction raises `ValueError`.
(2) When `effective_2d_coulomb` is requested and the thickness or
dielectric table is absent, construction raises `ValueError`, provided a
requested `free_exciton` also lacks a mass table (or is not requested):
otherwise the preceding `FreeExciton` construction may fail first, with a
different error (the `KeyError` of the indexing bug).
(3) In that situation construction still always fails. -/
theorem mott_wannier_construction_checks_tables :
    (∀ (terms : List String) (electron hole : Option (BilayerStruct ℚ))
        (thicknesses dielectric : Option (BilayerStruct ℝ)),
      "free_exciton" ∈ terms → (electron.isNone ∨ hole.isNone) →
      mottWannierInit terms electron hole thicknesses dielectric =
        .error .valueError) ∧
    (∀ (terms : List String) (electron hole : Option (BilayerStruct ℚ))
        (thicknesses dielectric : Option (BilayerStruct ℝ)),
      "effective_2d_coulomb" ∈ terms →
      (thicknesses.isNone ∨ dielectric.isNone) →
      ("free_exciton" ∈ terms → (electron.isNone ∨ hole.isNone)) →
      mottWannierInit terms electron hole thicknesses dielectric =
        .error .valueError) ∧
    (∀ (terms : List String) (electron hole : Option (BilayerStruct ℚ))
        (thicknesses dielectric : Option (BilayerStruct ℝ)),
      "effective_2d_coulomb" ∈ terms →
      (thicknesses.isNone ∨ dielectric.isNone) →
      (mottWannierInit terms electron hole thicknesses dielectric).isOk = false) := by
  refine ⟨?_, ?_, ?_⟩
  · intro terms electron hole thicknesses dielectric hmem habs
    refine mottWannierTermLoop_valueError electron hole thicknesses dielectric terms []
      "free_exciton" hmem
      (mottWannierStep_free_exciton_absent _ _ _ _ habs) ?_
    intro t _
    by_cases h1 : t = "free_exciton"
    · subst h1
      exact Or.inl (mottWannierStep_free_exciton_absent _ _ _ _ habs)
    · by_cases h2 : t = "effective_2d_coulomb"
      · subst h2
        cases thicknesses with
        | none =>
          exact Or.inl (mottWannierStep_coulomb_absent _ _ _ _ (Or.inl rfl))
        | some th =>
          cases dielectric with
          | none =>
            exact Or.inl (mottWannierStep_coulomb_absent _ _ _ _ (Or.inr rfl))
          | some dc => exact Or.inr ⟨_, rfl⟩
      · exact Or.inr ⟨[], by rw [mottWannierStep.eq_def, if_neg h1, if_neg h2]⟩
  · intro terms electron hole thicknesses dielectric hmem habs hfe
    refine mottWannierTermLoop_valueError electron hole thicknesses dielectric terms []
      "effective_2d_coulomb" hmem
      (mottWannierStep_coulomb_absent _ _ _ _ habs) ?_
    intro t htm
    by_cases h1 : t = "free_exciton"
    · subst h1
      exact Or.inl (mottWannierStep_free_exciton_absent _ _ _ _ (hfe htm))
    · by_cases h2 : t = "effective_2d_coulomb"
      · subst h2
        exact Or.inl (mottWannierStep_coulomb_absent _ _ _ _ habs)
      · exact Or.inr ⟨[], by rw [mottWannierStep.eq_def, if_neg h1, if_neg h2]⟩
  · intro terms electron hole thicknesses dielectric hmem habs
    exact mottWannierTermLoop_fails electron hole thicknesses dielectric terms []
      "effective_2d_coulomb" hmem
      ⟨.valueError, mottWannierStep_coulomb_absent _ _ _ _ habs⟩

/-- Claim C9 (counterexample): with the thickness and dielectric tables
PRESENT but EMPTY, construction of the `effective_2d_coulomb` assembly
succeeds — the constructor stores the tables without looking inside —
and the missing dielectric constants are only discovered at evaluation
time, when `get_hamiltonian_term` with the valid selector `l1_l1`
raises `ValueError` for the absent substrate constant. -/
theorem mott_wannier_deferred_validation :
    mottWannierInit ["effective_2d_coulomb"] none none (some []) (some []) =
      .ok [("effective_2d_coulomb", .coulomb [] [])] ∧
    coulombGetHamiltonianTerm (n := 0) [] [] fgTest (some "l1_l1") =
      .error .valueError := by
  constructor
  · rfl
  · rfl

/-- Claim C9 witness: the three presence-check failures at concrete
inputs: `free_exciton` with no mass tables; `effective_2d_coulomb` with no
thickness table; and both terms with the masses present and the thickness
table absent, where construction still fails. -/
theorem mott_wannier_construction_checks_tables_witness :
    mottWannierInit ["free_exciton"] none none none none = .error .valueError ∧
    mottWannierInit ["effective_2d_coulomb"] none none none (some []) =
      .error .valueError ∧
    (mottWannierInit ["free_exciton", "effective_2d_coulomb"]
      (some [("layer1", 1/2)]) (some [("layer1", 3/5)]) none
      (some [])).isOk = false := by
  refine ⟨?_, ?_, ?_⟩
  · exact mott_wannier_construction_checks_tables.1 ["free_exciton"]
      none none none none (by decide) (Or.inl rfl)
  · exact mott_wannier_construction_checks_tables.2.1 ["effective_2d_coulomb"]
      none none none (some []) (by decide) (Or.inl rfl)
      (fun hm => absurd hm (by decide))
  · exact mott_wannier_construction_checks_tables.2.2
      ["free_exciton", "effective_2d_coulomb"]
      (some [("layer1", 1/2)]) (some [("layer1", 3/5)]) none (some [])
      (by decide) (Or.inl rfl)

/-- `numpy.size(a, 1)`: the column count of a 2-D array (length of its
first row in the list-of-rows model). -/
def numCols (m : List (List ℝ)) : ℕ := (m.headD []).length

/-- `numpy.zeros((r, c))`. -/
def zerosMatrix (r c : ℕ) : List (List ℝ) := List.replicate r (List.replicate c 0)

/-- `numpy.diag(v)`: the square matrix with `v` on the diagonal. -/
def diagMatrix (v : List ℝ) : List (List ℝ) :=
  (List.range v.length).map (fun i =>
    (List.range v.length).map (fun j => if i = j then v.getD i 0 else 0))

/-- In-place `a += b` on numpy arrays: shapes must agree, which is the
only case these sources rely on (scalar/1-row broadcasts never occur
here); mismatched shapes raise `ValueError`. -/
def matAdd (a b : List (List ℝ)) : Except PyError (List (List ℝ)) :=
  if a.length == b.length &&
      (a.zip b).all (fun p => p.1.length == p.2.length) then
    .ok ((a.zip b).map (fun p => (p.1.zip p.2).map (fun q => q.1 + q.2)))
  else .error .valueError

/-- `FreeExciton.get_hamiltonian_term` (free_exciton.py, lines 54-80):
require the `exciton` keyword (`ValueError` when missing); fetch the
reduced mass with `self.exciton_effective_mass[exciton]` — the `except`
clause catches `ValueError`, so a missing key propagates as `KeyError` —
and return the 1-D array `‖k‖²/(2m)` over the flat grid. -/
noncomputable def freeExcitonGetHamiltonianTerm (table : BilayerStruct ℚ)
    (fg : List (List ℝ)) (exciton : Option String) :
    Except PyError (List ℝ) :=
  match exciton with
  | none => .error .valueError
  | some exc =>
    match table.lookup exc with
    | none => .error .keyError
    | some m =>
      .ok (fg.map (fun row =>
        (row.foldr (fun x acc => x ^ 2 + acc) 0) / (2 * (m : ℝ))))

/-- Term loop of `MottWannier.get_hamiltonian` (mott_wannier.py, lines
86-91): `free_exciton` adds `np.diag` of the term's 1-D contribution,
`effective_2d_coulomb` adds its matrix directly.  Both calls pass only
`layer=layer`, so inside the terms `kwargs.get('exciton')` is `None` and
each term raises `ValueError` before computing anything. -/
noncomputable def mwGetHamLoop (instances : List (String × MWInstance)) (fg : List (List ℝ)) :
    List String → List (List ℝ) → Except PyError (List (List ℝ))
  | [], ham => .ok ham
  | t :: rest, ham =>
    if t = "free_exciton" then do
      let inst ← dictGetItem instances t
      match inst with
      | .freeExc table => do
        let diag ← freeExcitonGetHamiltonianTerm table fg none
        let ham' ← matAdd ham (diagMatrix diag)
        mwGetHamLoop instances fg rest ham'
      | .coulomb _ _ => .error .typeError
    else if t = "effective_2d_coulomb" then do
      let inst ← dictGetItem instances t
      match inst with
      | .coulomb _ _ =>
        -- `get_hamiltonian_term(layer=layer)`: the exciton kwarg is
        -- absent, so the term raises `ValueError` immediately
        .error .valueError
      | .freeExc _ => .error .typeError
    else mwGetHamLoop instances fg rest ham

/-- `MottWannier.get_hamiltonian` (mott_wannier.py, lines 69-92): NOTE
(faithful to the source) the matrix is allocated with
`mesh_size = np.size(self.grid.flat_grid(), 1)` — the COLUMN count of the
flat grid, i.e. the number of grid dimensions, not the number of grid
points — and the requested terms are then added in list order. -/
noncomputable def mottWannierGetHamiltonian (instances : List (String × MWInstance))
    (terms : List String) (fg : List (List ℝ)) :
    Except PyError (List (List ℝ)) :=
  mwGetHamLoop instances fg terms (zerosMatrix (numCols fg) (numCols fg))

/-- Term loop of `MottWannierHamiltonian.get_hamiltonian`
(mott_wannier_hamiltonian.py, lines 136-147): `kinetic_term` re-sets the
term's mass to `effective_masses.get(exciton, 0)` (the mass setter
rejects masses within `1e-8` of zero) and adds `np.diag` of the kinetic
1-D contribution; `effective_2d_coulomb` sets the term's exciton
attribute but then calls `get_hamiltonian_term()` with NO keyword
arguments, so the term raises `ValueError` for the missing exciton. -/
noncomputable def mwhGetHamLoop (instances : List (String × MWTerm))
    (effMasses : BilayerStruct ℚ) (exciton : String) (fg : List (List ℝ)) :
    List String → List (List ℝ) → Except PyError (List (List ℝ))
  | [], ham => .ok ham
  | t :: rest, ham =>
    if t = "kinetic_term" then do
      let _ ← dictGetItem instances t
      let mass ← kineticMassSetter ((effMasses.lookup exciton).getD 0)
      let diag := fg.map (fun row =>
        (row.foldr (fun x acc => x ^ 2 + acc) 0) / (2 * (mass : ℝ)))
      let ham' ← matAdd ham (diagMatrix diag)
      mwhGetHamLoop instances effMasses exciton fg rest ham'
    else if t = "effective_2d_coulomb" then do
      let _ ← dictGetItem instances t
      -- `get_hamiltonian_term()` without kwargs: missing exciton
      .error .valueError
    else mwhGetHamLoop instances effMasses exciton fg rest ham

/-- `MottWannierHamiltonian.get_hamiltonian`
(mott_wannier_hamiltonian.py, lines 120-148): here the matrix is
allocated with `mesh_size = np.size(self.grid.flat_grid(), 0)` — the
number of grid points. -/
noncomputable def mottWannierHamiltonianGetHamiltonian (instances : List (String × MWTerm))
    (effMasses : BilayerStruct ℚ) (exciton : String)
    (terms : List String) (fg : List (List ℝ)) :
    Except PyError (List (List ℝ)) :=
  mwhGetHamLoop instances effMasses exciton fg terms
    (zerosMatrix fg.length fg.length)

/-- Claim C3: evaluation at the failing input.  On a one-dimensional grid
with three points (flat grid `[[0],[1],[2]]`, three rows and one column),
`MottWannier.get_hamiltonian` returns the 1×1 zero matrix `[[0]]` — it
sizes the matrix by the flat grid's COLUMN count — instead of a 3×3
matrix sized by the grid's point count; the sibling
`MottWannierHamiltonian.get_hamiltonian` sizes the same allocation by the
row count and returns a 3×3 zero matrix. -/
theorem mott_wannier_matrix_size_bug :
    mottWannierGetHamiltonian [] [] [[0], [1], [2]] = .ok [[0]] ∧
    ([[(0 : ℝ)], [1], [2]] : List (List ℝ)).length = 3 ∧
    mottWannierHamiltonianGetHamiltonian [] [] "l1_l1" [] [[0], [1], [2]] =
      .ok (zerosMatrix 3 3) ∧
    (zerosMatrix 3 3).length = 3 := by
  exact ⟨rfl, rfl, rfl, rfl⟩

/-- Taylor bounds for `exp(0.645)` (thirteen terms of the series plus the
remainder bound). -/
theorem exp_0645_bounds :
    (1.9059870292707 : ℝ) ≤ Real.exp (129 / 200) ∧
    Real.exp (129 / 200) ≤ 1.9059870292720 := by
  have hx : |(129 : ℝ) / 200| ≤ 1 := by
    rw [abs_of_nonneg (by norm_num)]
    norm_num
  have h := Real.exp_bound hx (by norm_num : 0 < 13)
  rw [abs_of_nonneg (by norm_num : (0:ℝ) ≤ 129/200)] at h
  rw [abs_le] at h
  obtain ⟨hlo, hhi⟩ := h
  constructor
  · have h1 : Real.exp (129/200) ≥
        (∑ m ∈ Finset.range 13, ((129 : ℝ) / 200) ^ m / m.factorial) -
        (129/200) ^ 13 * ((13 + 1) / ((13:ℕ).factorial * 13)) := by
      push_cast at hlo ⊢
      linarith
    refine le_trans ?_ h1
    simp only [Finset.sum_range_succ, Finset.sum_range_zero, Nat.factorial]
    norm_num
  · have h1 : Real.exp (129/200) ≤
        (∑ m ∈ Finset.range 13, ((129 : ℝ) / 200) ^ m / m.factorial) +
        (129/200) ^ 13 * ((13 + 1) / ((13:ℕ).factorial * 13)) := by
      push_cast at hhi ⊢
      linarith
    refine le_trans h1 ?_
    simp only [Finset.sum_range_succ, Finset.sum_range_zero, Nat.factorial]
    norm_num

/-- Squaring step: bounds for `exp(1.29)`. -/
theorem exp_1p29_bounds :
    (3.6327865557480 : ℝ) ≤ Real.exp (129 / 100) ∧
    Real.exp (129 / 100) ≤ 3.6327865557534 := by
  have h := exp_0645_bounds
  have hpos : (0:ℝ) < Real.exp (129/200) := Real.exp_pos _
  have hsplit : (129:ℝ)/100 = 129/200 + 129/200 := by norm_num
  rw [hsplit, Real.exp_add]
  constructor
  · calc (3.6327865557480 : ℝ) ≤ 1.9059870292707 * 1.9059870292707 := by norm_num
      _ ≤ Real.exp (129/200) * Real.exp (129/200) :=
        mul_le_mul h.1 h.1 (by norm_num) (le_of_lt hpos)
  · calc Real.exp (129/200) * Real.exp (129/200) ≤
        1.9059870292720 * 1.9059870292720 :=
        mul_le_mul h.2 h.2 (le_of_lt hpos) (by norm_num)
      _ ≤ 3.6327865557534 := by norm_num

/-- Squaring step: bounds for `exp(2.58)`. -/
theorem exp_2p58_bounds :
    (13.1971381596230 : ℝ) ≤ Real.exp (129 / 50) ∧
    Real.exp (129 / 50) ≤ 13.1971381596630 := by
  have h := exp_1p29_bounds
  have hpos : (0:ℝ) < Real.exp (129/100) := Real.exp_pos _
  have hsplit : (129:ℝ)/50 = 129/100 + 129/100 := by norm_num
  rw [hsplit, Real.exp_add]
  constructor
  · calc (13.1971381596230 : ℝ) ≤ 3.6327865557480 * 3.6327865557480 := by norm_num
      _ ≤ Real.exp (129/100) * Real.exp (129/100) :=
        mul_le_mul h.1 h.1 (by norm_num) (le_of_lt hpos)
  · calc Real.exp (129/100) * Real.exp (129/100) ≤
        3.6327865557534 * 3.6327865557534 :=
        mul_le_mul h.2 h.2 (le_of_lt hpos) (by norm_num)
      _ ≤ 13.1971381596630 := by norm_num

/-- Generic interval bounds for `tanh` from bounds on `exp` at the same
argument, via `tanh x = (E² - 1)/(E² + 1)` for `E = exp x`. -/
theorem tanh_bounds_of_exp {x a b tl tu : ℝ} (ha : 1 ≤ a)
    (hE1 : a ≤ Real.exp x) (hE2 : Real.exp x ≤ b)
    (hl : tl * (a ^ 2 + 1) ≤ a ^ 2 - 1) (htl : tl ≤ 1)
    (hu : b ^ 2 - 1 ≤ tu * (b ^ 2 + 1)) (htu : tu ≤ 1) :
    tl ≤ Real.tanh x ∧ Real.tanh x ≤ tu := by
  have hE0 : (0:ℝ) < Real.exp x := Real.exp_pos x
  have hEne : Real.exp x ≠ 0 := ne_of_gt hE0
  rw [Real.tanh_eq_sinh_div_cosh, Real.sinh_eq, Real.cosh_eq, Real.exp_neg]
  have heq : (Real.exp x - (Real.exp x)⁻¹) / 2 / ((Real.exp x + (Real.exp x)⁻¹) / 2) =
      (Real.exp x ^ 2 - 1) / (Real.exp x ^ 2 + 1) := by
    field_simp
    ring
  rw [heq]
  have hy1 : a ^ 2 ≤ Real.exp x ^ 2 := pow_le_pow_left₀ (by linarith) hE1 2
  have hy2 : Real.exp x ^ 2 ≤ b ^ 2 := pow_le_pow_left₀ (le_of_lt hE0) hE2 2
  have hypos : (0:ℝ) < Real.exp x ^ 2 + 1 := by positivity
  constructor
  · rw [le_div_iff₀ hypos]
    nlinarith [mul_nonneg (sub_nonneg.2 htl) (sub_nonneg.2 hy1)]
  · rw [div_le_iff₀ hypos]
    nlinarith [mul_nonneg (sub_nonneg.2 htu) (sub_nonneg.2 hy2)]

/-- Generic interval bounds for `cosh` from bounds on `exp` at the same
argument, via `cosh x = (E + E⁻¹)/2`. -/
theorem cosh_bounds_of_exp {x a b cl cu : ℝ} (ha : 0 < a)
    (hE1 : a ≤ Real.exp x) (hE2 : Real.exp x ≤ b)
    (hl : 2 * cl ≤ a + b⁻¹) (hu : b + a⁻¹ ≤ 2 * cu) :
    cl ≤ Real.cosh x ∧ Real.cosh x ≤ cu := by
  have hE0 : (0:ℝ) < Real.exp x := Real.exp_pos x
  have hb : (0:ℝ) < b := lt_of_lt_of_le hE0 hE2
  rw [Real.cosh_eq, Real.exp_neg]
  have hinv1 : (Real.exp x)⁻¹ ≤ a⁻¹ := inv_anti₀ ha hE1
  have hinv2 : b⁻¹ ≤ (Real.exp x)⁻¹ := inv_anti₀ hE0 hE2
  constructor <;> linarith

/-- Squaring step: bounds for `exp(5.16)`. -/
theorem exp_5p16_bounds :
    (174.1644556037 : ℝ) ≤ Real.exp (129 / 25) ∧
    Real.exp (129 / 25) ≤ 174.1644556053 := by
  have h := exp_2p58_bounds
  have hpos : (0:ℝ) < Real.exp (129/50) := Real.exp_pos _
  have hsplit : (129:ℝ)/25 = 129/50 + 129/50 := by norm_num
  rw [hsplit, Real.exp_add]
  constructor
  · calc (174.1644556037 : ℝ) ≤ 13.1971381596230 * 13.1971381596230 := by norm_num
      _ ≤ Real.exp (129/50) * Real.exp (129/50) :=
        mul_le_mul h.1 h.1 (by norm_num) (le_of_lt hpos)
  · calc Real.exp (129/50) * Real.exp (129/50) ≤
        13.1971381596630 * 13.1971381596630 :=
        mul_le_mul h.2 h.2 (le_of_lt hpos) (by norm_num)
      _ ≤ 174.1644556053 := by norm_num

/-- Interval bounds for `tanh(0.645)`. -/
theorem tanh_0645_bounds :
    (0.5682943783545 : ℝ) ≤ Real.tanh (129 / 200) ∧
    Real.tanh (129 / 200) ≤ 0.5682943783551 :=
  tanh_bounds_of_exp (by norm_num) exp_0645_bounds.1 exp_0645_bounds.2
    (by norm_num) (by norm_num) (by norm_num) (by norm_num)

/-- Interval bounds for `tanh(1.29)`. -/
theorem tanh_1p29_bounds :
    (0.8591265382140 : ℝ) ≤ Real.tanh (129 / 100) ∧
    Real.tanh (129 / 100) ≤ 0.8591265382145 :=
  tanh_bounds_of_exp (by norm_num) exp_1p29_bounds.1 exp_1p29_bounds.2
    (by norm_num) (by norm_num) (by norm_num) (by norm_num)

/-- Interval bounds for `tanh(2.58)`. -/
theorem tanh_2p58_bounds :
    (0.9885821584458 : ℝ) ≤ Real.tanh (129 / 50) ∧
    Real.tanh (129 / 50) ≤ 0.9885821584460 :=
  tanh_bounds_of_exp (by norm_num) exp_2p58_bounds.1 exp_2p58_bounds.2
    (by norm_num) (by norm_num) (by norm_num) (by norm_num)

/-- Interval bounds for `cosh(0.645)`. -/
theorem cosh_0645_bounds :
    (1.2153247856875 : ℝ) ≤ Real.cosh (129 / 200) ∧
    Real.cosh (129 / 200) ≤ 1.2153247856905 :=
  cosh_bounds_of_exp (by norm_num) exp_0645_bounds.1 exp_0645_bounds.2
    (by norm_num) (by norm_num)

/-- Interval bounds for `cosh(1.29)`. -/
theorem cosh_1p29_bounds :
    (1.9540286694160 : ℝ) ≤ Real.cosh (129 / 100) ∧
    Real.cosh (129 / 100) ≤ 1.9540286694246 :=
  cosh_bounds_of_exp (by norm_num) exp_1p29_bounds.1 exp_1p29_bounds.2
    (by norm_num) (by norm_num)

/-- Interval bounds for `cosh(2.58)`. -/
theorem cosh_2p58_bounds :
    (6.6364560817840 : ℝ) ≤ Real.cosh (129 / 50) ∧
    Real.cosh (129 / 50) ≤ 6.6364560818660 :=
  cosh_bounds_of_exp (by norm_num) exp_2p58_bounds.1 exp_2p58_bounds.2
    (by norm_num) (by norm_num)

/-- Interval bounds for a product of two quotients of positively bounded
quantities. -/
theorem interval_prod_div {c den f fd : ℝ}
    (ca cb fa fb da db ga gb lo hi : ℝ)
    (hc : ca ≤ c ∧ c ≤ cb) (hf : fa ≤ f ∧ f ≤ fb)
    (hden : da ≤ den ∧ den ≤ db) (hfd : ga ≤ fd ∧ fd ≤ gb)
    (hca : 0 ≤ ca) (hfa : 0 ≤ fa) (hda : 0 < da) (hga : 0 < ga)
    (hlo0 : 0 ≤ lo) (hhi0 : 0 ≤ hi)
    (hlo : lo * (db * gb) < ca * fa) (hhi : cb * fb < hi * (da * ga)) :
    lo < (c / den) * (f / fd) ∧ (c / den) * (f / fd) < hi := by
  have hc0 : (0:ℝ) ≤ c := le_trans hca hc.1
  have hden0 : (0:ℝ) < den := lt_of_lt_of_le hda hden.1
  have hfd0 : (0:ℝ) < fd := lt_of_lt_of_le hga hfd.1
  rw [div_mul_div_comm]
  have hD : (0:ℝ) < den * fd := mul_pos hden0 hfd0
  have hDb : den * fd ≤ db * gb :=
    mul_le_mul hden.2 hfd.2 (le_of_lt hfd0) (le_trans (le_of_lt hden0) hden.2)
  have hDa : da * ga ≤ den * fd :=
    mul_le_mul hden.1 hfd.1 (le_of_lt hga) (le_of_lt hden0)
  have hN1 : ca * fa ≤ c * f := mul_le_mul hc.1 hf.1 hfa hc0
  have hN2 : c * f ≤ cb * fb :=
    mul_le_mul hc.2 hf.2 (le_trans hfa hf.1) (le_trans hca (le_trans hc.1 hc.2))
  constructor
  · rw [lt_div_iff₀ hD]
    calc lo * (den * fd) ≤ lo * (db * gb) := mul_le_mul_of_nonneg_left hDb hlo0
      _ < ca * fa := hlo
      _ ≤ c * f := hN1
  · rw [div_lt_iff₀ hD]
    calc c * f ≤ cb * fb := hN2
      _ < hi * (da * ga) := hhi
      _ ≤ hi * (den * fd) := mul_le_mul_of_nonneg_left hDa hhi0

/-- `f(k)` of the reference test configuration (tables `dielectricTest`
and `thicknessesTest`, reference layer `layer2`, coupled layer `layer1`),
with the fetched constants substituted into `getFK`. -/
noncomputable def fkTest (k : ℝ) : ℝ :=
  (3.9 + 1)
  + (3.9 * 1 / 1 + 1) * Real.tanh (k * 0)
  + ((16.5 + 3.9 * 1 / 16.5) + (16.5 * 1 / 1 + 3.9 * 1 / 16.5) * Real.tanh (k * 0)) *
      Real.tanh (k * 0.645)
  + ((15.1 + 3.9 * 1 / 15.1) + (15.1 * 3.9 / 1 + 1 * 1 / 15.1) * Real.tanh (k * 0)) *
      Real.tanh (k * 0.645)
  + ((15.1 * 3.9 / 16.5 + 16.5 * 1 / 15.1) + (16.5 * 15.1 / 1 + 3.9 * 1 * 1 / (16.5 * 15.1)) *
      Real.tanh (k * 0)) * Real.tanh (k * 0.645) * Real.tanh (k * 0.645)

/-- The intralayer dielectric function of the reference test
configuration, with the fetched constants substituted into
`getIntralayerDielectricFunction`. -/
noncomputable def epsIntraTest (k : ℝ) : ℝ :=
  (Real.cosh (k * 0.645) /
    (Real.cosh (k * 0.645 / 2) ^ 2 * (1 + 3.9 / 16.5 * Real.tanh (k * 0.645 / 2)))) *
  (fkTest k /
    (1 + 1 / 1 * Real.tanh (k * 0)
      + (1 / 15.1 + 15.1 / 1 * Real.tanh (k * 0)) * Real.tanh (k * 0.645)
      + (1 / 16.5 + 1 / 16.5 * Real.tanh (k * 0)) * Real.tanh (k * 0.645 / 2)
      + (15.1 / 16.5 + 1 * 1 / (16.5 * 15.1) * Real.tanh (k * 0)) *
          Real.tanh (k * 0.645) * Real.tanh (k * 0.645 / 2)))

/-- Fetching the intralayer dielectric function on the reference test
configuration yields exactly `epsIntraTest`. -/
theorem intralayer_test_formula :
    getIntralayerDielectricFunction dielectricTest thicknessesTest
      "layer2" "layer1" = .ok epsIntraTest := by
  have hdc : getDielectricConstants dielectricTest "layer2" "layer1" =
      .ok (3.9, 1, 1, 16.5, 15.1) := rfl
  have hth : getThicknesses thicknessesTest "layer2" "layer1" =
      .ok (0.645, 0.645, 0) := rfl
  have hfk : getFK dielectricTest thicknessesTest "layer2" "layer1" =
      .ok fkTest := by
    simp only [getFK, hdc, hth, Bind.bind, Except.bind]
    rfl
  simp only [getIntralayerDielectricFunction, hdc, hth, hfk, Bind.bind, Except.bind]
  rfl


set_option maxHeartbeats 1600000 in
/-- Certified interval bounds for the test dielectric function at kernel
value `2`. -/
theorem epsIntraTest_at_two :
    (27.2318 : ℝ) < epsIntraTest 2 ∧ epsIntraTest 2 < 27.2320 := by
  have ht := tanh_1p29_bounds
  have hu := tanh_0645_bounds
  have hc := cosh_1p29_bounds
  have hch := cosh_0645_bounds
  have e1 : (2:ℝ) * 0.645 = 129/100 := by norm_num
  have e2 : (129:ℝ)/100 / 2 = 129/200 := by norm_num
  have e3 : (2:ℝ) * 0 = 0 := by norm_num
  rw [epsIntraTest, fkTest, e1, e3, Real.tanh_zero, e2]
  have hch2 : (1.4770143347 : ℝ) ≤ Real.cosh (129/200) ^ 2 ∧
      Real.cosh (129/200) ^ 2 ≤ 1.4770143348 := by
    constructor <;> nlinarith [hch.1, hch.2]
  have hop : (1.1343241257 : ℝ) ≤ 1 + 3.9/16.5 * Real.tanh (129/200) ∧
      1 + 3.9/16.5 * Real.tanh (129/200) ≤ 1.1343241258 := by
    constructor <;> nlinarith [hu.1, hu.2]
  refine interval_prod_div 1.9540286694160 1.9540286694246
    35.9142301835 35.9142301836 1.6754129938 1.6754129942
    1.5381485115 1.5381485116 27.2318 27.2320
    hc ⟨?_, ?_⟩ ⟨?_, ?_⟩ ⟨?_, ?_⟩
    (by norm_num) (by norm_num) (by norm_num) (by norm_num)
    (by norm_num) (by norm_num) (by norm_num) (by norm_num)
  · nlinarith [ht.1, ht.2, mul_le_mul ht.1 ht.1 (by norm_num) (by linarith [ht.1])]
  · nlinarith [ht.1, ht.2, mul_le_mul ht.2 ht.2 (by linarith [ht.1]) (by norm_num)]
  · nlinarith [hch2.1, hch2.2, hop.1, hop.2]
  · nlinarith [hch2.1, hch2.2, hop.1, hop.2]
  · nlinarith [ht.1, ht.2, hu.1, hu.2,
      mul_le_mul ht.1 hu.1 (by norm_num) (by linarith [ht.1])]
  · nlinarith [ht.1, ht.2, hu.1, hu.2,
      mul_le_mul ht.2 hu.2 (by linarith [hu.1]) (by norm_num)]

set_option maxHeartbeats 1600000 in
/-- Certified interval bounds for the test dielectric function at kernel
value `4`. -/
theorem epsIntraTest_at_four :
    (31.4016 : ℝ) < epsIntraTest 4 ∧ epsIntraTest 4 < 31.4018 := by
  have ht := tanh_1p29_bounds
  have ht2 := tanh_2p58_bounds
  have hc := cosh_1p29_bounds
  have hc2 := cosh_2p58_bounds
  have e1 : (4:ℝ) * 0.645 = 129/50 := by norm_num
  have e2 : (129:ℝ)/50 / 2 = 129/100 := by norm_num
  have e3 : (4:ℝ) * 0 = 0 := by norm_num
  rw [epsIntraTest, fkTest, e1, e3, Real.tanh_zero, e2]
  have hcsq : (3.8182280408 : ℝ) ≤ Real.cosh (129/100) ^ 2 ∧
      Real.cosh (129/100) ^ 2 ≤ 3.8182280410 := by
    constructor <;> nlinarith [hc.1, hc.2]
  have hop : (1.2030662726 : ℝ) ≤ 1 + 3.9/16.5 * Real.tanh (129/100) ∧
      1 + 3.9/16.5 * Real.tanh (129/100) ≤ 1.2030662727 := by
    constructor <;> nlinarith [ht.1, ht.2]
  refine interval_prod_div 6.6364560817840 6.6364560818660
    41.1841486067 41.1841486068 4.5935813769 4.5935813777
    1.8947911848 1.8947911849 31.4016 31.4018
    hc2 ⟨?_, ?_⟩ ⟨?_, ?_⟩ ⟨?_, ?_⟩
    (by norm_num) (by norm_num) (by norm_num) (by norm_num)
    (by norm_num) (by norm_num) (by norm_num) (by norm_num)
  · nlinarith [ht2.1, ht2.2, mul_le_mul ht2.1 ht2.1 (by norm_num) (by linarith [ht2.1])]
  · nlinarith [ht2.1, ht2.2, mul_le_mul ht2.2 ht2.2 (by linarith [ht2.1]) (by norm_num)]
  · nlinarith [hcsq.1, hcsq.2, hop.1, hop.2]
  · nlinarith [hcsq.1, hcsq.2, hop.1, hop.2]
  · nlinarith [ht2.1, ht2.2, ht.1, ht.2,
      mul_le_mul ht2.1 ht.1 (by norm_num) (by linarith [ht2.1])]
  · nlinarith [ht2.1, ht2.2, ht.1, ht.2,
      mul_le_mul ht2.2 ht.2 (by linarith [ht.1]) (by norm_num)]

/-- C5 (corrected value): on the reference configuration (thicknesses
0.645/0/0.645, dielectric constants 1, 15.1, 1, 16.5, 3.9) the intralayer
dielectric screening function evaluates to approximately 27.2319 at
kernel value 2 and to approximately 31.4017 (not 31.3998) at kernel
value 4. -/
theorem intralayer_reference_values :
    ∃ F, getIntralayerDielectricFunction dielectricTest thicknessesTest
        "layer2" "layer1" = .ok F ∧
      |F 2 - 27.2319| < 1/10000 ∧ |F 4 - 31.4017| < 1/10000 := by
  refine ⟨epsIntraTest, intralayer_test_formula, ?_, ?_⟩
  · have h := epsIntraTest_at_two
    rw [abs_lt]
    constructor <;> linarith [h.1, h.2]
  · have h := epsIntraTest_at_four
    rw [abs_lt]
    constructor <;> linarith [h.1, h.2]

/-- C5 counterexample: at kernel value 4 the intralayer dielectric
function of the reference configuration differs from the claimed 31.3998
by more than 1/1000. -/
theorem intralayer_value_at_four_differs :
    ∃ F, getIntralayerDielectricFunction dielectricTest thicknessesTest
        "layer2" "layer1" = .ok F ∧
      |F 4 - 31.3998| > 1/1000 := by
  refine ⟨epsIntraTest, intralayer_test_formula, ?_⟩
  have h := epsIntraTest_at_four
  rw [gt_iff_lt, lt_abs]
  left
  linarith [h.1]
